import Mathlib

set_option autoImplicit false

universe u v

/-!
Shallow embedding of `stellargraph/core/element_data.py`.

The module stores node and edge attributes for a graph and translates between
external identifiers and dense integer locations ("ilocs").  Pandas/numpy
behaviour is embedded explicitly:

* `pd.Index(ids)` is the plain list of identifiers, in order;
* `np.min_scalar_type(n)` is the bit width of the smallest unsigned dtype
  holding `n`;
* `Index.get_indexer` maps each queried value to its position, `-1` if absent;
* `astype` to an unsigned width `w` wraps values modulo `2 ^ w`;
* indexing an axis by an integer wraps one length for negative positions and
  raises (here: `none`) out of range.

Fallible Python code (raising `ValueError` / `KeyError` /
`InvalidArgumentError`) is embedded with `Except` / `Option`.
-/

/-! ### Embedded definitions -/

/-- Embeds `np.min_scalar_type(n)` for a non-negative Python int: the bit width of the
smallest unsigned integer dtype (uint8/uint16/uint32/uint64) able to hold `n`. -/
def min_scalar_type (n : Nat) : Nat :=
  if n < 2 ^ 8 then 8
  else if n < 2 ^ 16 then 16
  else if n < 2 ^ 32 then 32
  else 64

/-- The values of the scanned list that also occur at an earlier position
(`index[index.duplicated()]` with the default keep-first), in occurrence order,
possibly with repeats.  `seen` holds the already-scanned prefix. -/
def duplicatedFlagged {α : Type u} [DecidableEq α] : List α → List α → List α
  | _, [] => []
  | seen, x :: xs =>
    if x ∈ seen then x :: duplicatedFlagged (x :: seen) xs
    else duplicatedFlagged (x :: seen) xs

/-- Embeds `.unique()`: deduplication keeping the first occurrence of each value. -/
def uniqueFirst {α : Type u} [DecidableEq α] : List α → List α
  | [] => []
  | x :: xs => x :: (uniqueFirst xs).filter (fun y => decide (y ≠ x))

/-- Indexing a pandas/numpy axis by one integer: a negative position wraps once
from the end, anything still out of range raises `IndexError` (`none`). -/
def pandasGet {α : Type u} (index : List α) (i : Int) : Option α :=
  if 0 ≤ i then index[i.toNat]?
  else if 0 ≤ (index.length : Int) + i then index[((index.length : Int) + i).toNat]?
  else none

/-- Embeds `np.repeat(xs, counts)`: each element of `xs` repeated by the matching
count, concatenated in order. -/
def npRepeat (xs : List Int) (counts : List Nat) : List Int :=
  ((xs.zip counts).map (fun p => List.replicate p.2 p.1)).flatten

instance exceptDecEq {ε : Type u} {β : Type v} [DecidableEq ε] [DecidableEq β] :
    DecidableEq (Except ε β) := fun x y =>
  match x, y with
  | Except.error a, Except.error b => decidable_of_iff (a = b) (by simp)
  | Except.ok a, Except.ok b => decidable_of_iff (a = b) (by simp)
  | Except.error _, Except.ok _ => Decidable.isFalse (by simp)
  | Except.ok _, Except.error _ => Decidable.isFalse (by simp)

/-- Embeds `ExternalIdIndex`: the stored `pd.Index` of external ids together with the
compact dtype width derived from the length. -/
structure ExternalIdIndex (α : Type u) where
  _index : List α
  _dtype : Nat
deriving DecidableEq

namespace ExternalIdIndex

/-- The two attribute assignments of `ExternalIdIndex.__init__`. -/
def ofList {α : Type u} (ids : List α) : ExternalIdIndex α :=
  { _index := ids, _dtype := min_scalar_type ids.length }

/-- Embeds `ExternalIdIndex.__init__`: store the ids and dtype, then raise a
`ValueError` listing the distinct duplicated values if the index is not
unique. -/
def construct {α : Type u} [DecidableEq α] (ids : List α) :
    Except (List α) (ExternalIdIndex α) :=
  let idx := ofList ids
  let duplicated := uniqueFirst (duplicatedFlagged [] ids)
  if duplicated.isEmpty then Except.ok idx else Except.error duplicated

/-- Embeds `__len__`. -/
def length {α : Type u} (idx : ExternalIdIndex α) : Nat :=
  idx._index.length

/-- Embeds `contains_external`. -/
def contains_external {α : Type u} [DecidableEq α] (idx : ExternalIdIndex α) (a : α) : Bool :=
  decide (a ∈ idx._index)

/-- Embeds `is_valid`: elementwise `(0 <= ilocs) & (ilocs < len(self))`. -/
def is_valid {α : Type u} (idx : ExternalIdIndex α) (ilocs : List Int) : List Bool :=
  ilocs.map (fun i => decide (0 ≤ i ∧ i < (idx.length : Int)))

/-- Embeds `require_valid`: raise a `KeyError` carrying the queried ids at the invalid
positions (pandas: `np.asarray(query_ids)[~valid]`), if any. -/
def require_valid {α : Type u} (idx : ExternalIdIndex α) (query_ids : List α)
    (ilocs : List Int) : Except (List α) Unit :=
  let missing_values := (query_ids.zip ilocs).filterMap
    (fun p => if 0 ≤ p.2 ∧ p.2 < (idx.length : Int) then none else some p.1)
  if missing_values.isEmpty then Except.ok () else Except.error missing_values

/-- Embeds `pd.Index.get_indexer` on a unique index: the position of each queried
value, `-1` where absent. -/
def get_indexer {α : Type u} [DecidableEq α] (index : List α) (ids : List α) : List Int :=
  ids.map (fun a => if a ∈ index then (index.indexOf a : Int) else -1)

/-- Embeds `to_iloc(ids, smaller_type, strict)`.  `astype(self._dtype)` wraps each
value modulo `2 ^ _dtype` (so `-1` becomes the dtype's maximum). -/
def to_iloc {α : Type u} [DecidableEq α] (idx : ExternalIdIndex α) (ids : List α)
    (smaller_type strict : Bool) : Except (List α) (List Int) :=
  match (if strict then
      idx.require_valid ids (get_indexer idx._index ids) else Except.ok ()) with
  | Except.error e => Except.error e
  | Except.ok _ =>
    if smaller_type then
      Except.ok ((get_indexer idx._index ids).map (fun i => i.emod (2 ^ idx._dtype)))
    else Except.ok (get_indexer idx._index ids)

/-- Embeds `from_iloc`: `self._index[internal_ids]`, raising (`none`) on any
out-of-bounds position. -/
def from_iloc {α : Type u} (idx : ExternalIdIndex α) (internal_ids : List Int) :
    Option (List α) :=
  internal_ids.mapM (pandasGet idx._index)

end ExternalIdIndex

/-- The tabular input for one element type: the row labels (the pandas index,
which becomes the external element ids) and the three columns an edge frame
must carry (unused and empty for plain node frames). -/
structure DataFrame (α : Type u) where
  labels : List α
  source : List Int
  target : List Int
  weight : List Int
deriving DecidableEq

/-- Python `dict` access by key (first matching entry). -/
def alookup {τ : Type v} {β : Type u} [DecidableEq τ] : List (τ × β) → τ → Option β
  | [], _ => none
  | p :: ps, t => if p.1 = t then some p.2 else alookup ps t

/-- Embeds `shared[type_name]` with a default empty frame for a missing key (only ever
used with keys of `shared`). -/
def frameOf {τ : Type v} {α : Type u} [DecidableEq τ]
    (shared : List (τ × DataFrame α)) (t : τ) : DataFrame α :=
  match alookup shared t with
  | some df => df
  | none => ⟨[], [], [], []⟩

/-- Embeds `sorted(shared.keys())` (a stable comparison sort; the keys are unique so
any comparison sort gives the same list). -/
def sortedKeys {τ : Type v} {α : Type u} [LinearOrder τ]
    (shared : List (τ × DataFrame α)) : List τ :=
  (shared.map Prod.fst).insertionSort (fun a b => a ≤ b)

/-- The per-type row counts, in sorted type order. -/
def typeSizes {τ : Type v} {α : Type u} [LinearOrder τ]
    (shared : List (τ × DataFrame α)) : List Nat :=
  (sortedKeys shared).map (fun t => (frameOf shared t).labels.length)

/-- The concatenated row labels (`pd.concat(type_dfs).index`), in sorted type
order, preserving per-type row order. -/
def allLabels {τ : Type v} {α : Type u} [LinearOrder τ]
    (shared : List (τ × DataFrame α)) : List α :=
  ((sortedKeys shared).map (fun t => (frameOf shared t).labels)).flatten

/-- Embeds `type_element_ilocs`: for each type, `range(rows_so_far, rows_so_far +
size)` stored as a `(start, stop)` pair, accumulated in processing order. -/
def rangesFrom {τ : Type v} : Nat → List (τ × Nat) → List (τ × Nat × Nat)
  | _, [] => []
  | acc, p :: rest => (p.1, acc, acc + p.2) :: rangesFrom (acc + p.2) rest

/-- The construction failures of `ElementData.__init__` (both are Python
`ValueError`s raised by `ExternalIdIndex`). -/
inductive ElemErr (τ : Type v) (α : Type u) where
  | dupIds (vals : List α)
  | dupTypes (vals : List τ)
deriving DecidableEq

/-- Embeds `ElementData`: the id index over all row labels, the type-name index, the
per-element type-code column, the per-type iloc ranges and the cached shared
columns (concatenated in sorted type order, as `pd.concat` produces them). -/
structure ElementData (τ : Type v) (α : Type u) where
  _id_index : ExternalIdIndex α
  _type_index : ExternalIdIndex τ
  _type_column : List Int
  _type_element_ilocs : List (τ × Nat × Nat)
  _columns_source : List Int
  _columns_target : List Int
  _columns_weight : List Int
deriving DecidableEq

/-- Embeds `ElementData.__init__`: sort the type names, assign contiguous iloc
ranges, concatenate the per-type frames, build the id index over the
concatenated row labels, the type index over the sorted type names, and the
type-code column by repeating each type's code across its range. -/
def ElementData.construct {τ : Type v} {α : Type u} [LinearOrder τ] [DecidableEq α]
    (shared : List (τ × DataFrame α)) : Except (ElemErr τ α) (ElementData τ α) :=
  match ExternalIdIndex.construct (allLabels shared) with
  | Except.error es => Except.error (ElemErr.dupIds es)
  | Except.ok id_index =>
    match ExternalIdIndex.construct (sortedKeys shared) with
    | Except.error es => Except.error (ElemErr.dupTypes es)
    | Except.ok type_index =>
      match type_index.to_iloc (sortedKeys shared) true false with
      | Except.error es => Except.error (ElemErr.dupTypes es)
      | Except.ok type_codes =>
        Except.ok
          { _id_index := id_index
            _type_index := type_index
            _type_column := npRepeat type_codes (typeSizes shared)
            _type_element_ilocs :=
              rangesFrom 0 ((sortedKeys shared).zip (typeSizes shared))
            _columns_source :=
              ((sortedKeys shared).map (fun t => (frameOf shared t).source)).flatten
            _columns_target :=
              ((sortedKeys shared).map (fun t => (frameOf shared t).target)).flatten
            _columns_weight :=
              ((sortedKeys shared).map (fun t => (frameOf shared t).weight)).flatten }

/-- Embeds `__len__`. -/
def ElementData.length {τ : Type v} {α : Type u} (ed : ElementData τ α) : Nat :=
  ed._id_index.length

/-- Embeds `type_range`: the `(start, stop)` iloc range of a type name
(`KeyError`, i.e. `none`, for an unknown type). -/
def ElementData.type_range {τ : Type v} {α : Type u} [DecidableEq τ]
    (ed : ElementData τ α) (t : τ) : Option (Nat × Nat) :=
  alookup ed._type_element_ilocs t

/-- Embeds `type_ilocs`: the per-element type-code column. -/
def ElementData.type_ilocs {τ : Type v} {α : Type u} (ed : ElementData τ α) : List Int :=
  ed._type_column

/-- Embeds `type_of_iloc`: select the type codes at the queried ilocs, then translate
them back to type names with the type index. -/
def ElementData.type_of_iloc {τ : Type v} {α : Type u} (ed : ElementData τ α)
    (id_ilocs : List Int) : Option (List τ) :=
  match id_ilocs.mapM (pandasGet ed._type_column) with
  | none => none
  | some type_codes => ed._type_index.from_iloc type_codes

/-- Embeds `rows_so_far` before the `j`-th sorted type: the sum of the earlier
types' row counts. -/
def offsetAt {τ : Type v} {α : Type u} [LinearOrder τ]
    (shared : List (τ × DataFrame α)) (j : Nat) : Nat :=
  ((typeSizes shared).take j).sum

/-- A store with a row label (`11`) repeated across two types. -/
def sharedDupEx : List (Nat × DataFrame Nat) :=
  [(0, ⟨[10, 11], [], [], []⟩), (1, ⟨[11, 12], [], [], []⟩)]

/-- A store with type 0 holding 3 rows and type 1 holding 5 rows. -/
def sharedEx3 : List (Nat × DataFrame Nat) :=
  [(0, ⟨[10, 11, 12], [], [], []⟩), (1, ⟨[20, 21, 22, 23, 24], [], [], []⟩)]

/-- The element store built from `sharedEx3`. -/
def edEx3 : ElementData Nat Nat :=
  match ElementData.construct sharedEx3 with
  | Except.ok ed => ed
  | Except.error _ =>
      ElementData.mk (ExternalIdIndex.ofList []) (ExternalIdIndex.ofList [])
        [] [] [] [] []

/-- Embeds `NodeData.__init__` failures: the base-store error, a `KeyError` for a
feature type missing from the store, or the row-count-mismatch `ValueError`. -/
inductive NodeErr (τ : Type v) (α : Type u) where
  | elem (e : ElemErr τ α)
  | keyError (t : τ)
  | rowMismatch (t : τ) (expected rows : Nat)
deriving DecidableEq

/-- Embeds `NodeData`: the element store plus the per-type 2D feature payloads
(a payload is its list of rows, so 2-dimensionality is intrinsic here). -/
structure NodeData (τ : Type v) (α : Type u) extends ElementData τ α where
  _features : List (τ × List (List Int))
deriving DecidableEq

/-- The per-type validation loop of `NodeData.__init__`: each feature payload
must belong to a known type and have one row per element of that type
(`expected = len(self._type_element_ilocs[key])`). -/
def checkFeatures {τ : Type v} {α : Type u} [DecidableEq τ] (base : ElementData τ α) :
    List (τ × List (List Int)) → Except (NodeErr τ α) Unit
  | [] => Except.ok ()
  | p :: rest =>
    match base.type_range p.1 with
    | none => Except.error (NodeErr.keyError p.1)
    | some r =>
      if p.2.length = r.2 - r.1 then checkFeatures base rest
      else Except.error (NodeErr.rowMismatch p.1 (r.2 - r.1) p.2.length)

/-- Embeds `NodeData.__init__`: build the base store, validate the feature payloads,
store them. -/
def NodeData.construct {τ : Type v} {α : Type u} [LinearOrder τ] [DecidableEq α]
    (shared : List (τ × DataFrame α)) (features : List (τ × List (List Int))) :
    Except (NodeErr τ α) (NodeData τ α) :=
  match ElementData.construct shared with
  | Except.error e => Except.error (NodeErr.elem e)
  | Except.ok base =>
    match checkFeatures base features with
    | Except.error e => Except.error e
    | Except.ok _ => Except.ok { toElementData := base, _features := features }

/-- Embeds `NodeData.features` failures: a `KeyError` for an unknown type, or the
"unknown IDs" `ValueError`. -/
inductive FeatErr (τ : Type v) where
  | keyError (t : τ)
  | unknownIDs
deriving DecidableEq

/-- Embeds `NodeData.features`: subtract the type's range start from each queried
iloc; raise "unknown IDs" if any offset is negative; otherwise gather the rows
with `tf.nn.embedding_lookup`, whose `InvalidArgumentError` (an offset at or
past the payload's row count) is re-raised as the same "unknown IDs" error. -/
def NodeData.features {τ : Type v} {α : Type u} [DecidableEq τ] (nd : NodeData τ α)
    (type_name : τ) (id_ilocs : List Int) :
    Except (FeatErr τ) (List (List Int)) :=
  match nd.type_range type_name with
  | none => Except.error (FeatErr.keyError type_name)
  | some r =>
    if (id_ilocs.map (fun i => i - (r.1 : Int))).any (fun i => decide (i < 0)) then
      Except.error FeatErr.unknownIDs
    else
      match alookup nd._features type_name with
      | none => Except.error (FeatErr.keyError type_name)
      | some payload =>
        if (id_ilocs.map (fun i => i - (r.1 : Int))).any
            (fun i => decide ((payload.length : Int) ≤ i)) then
          Except.error FeatErr.unknownIDs
        else
          Except.ok ((id_ilocs.map (fun i => i - (r.1 : Int))).map
            (fun i => (payload[i.toNat]?).getD []))

/-- Embeds `feature_info`. -/
def NodeData.feature_info {τ : Type v} {α : Type u} (nd : NodeData τ α) :
    List (τ × Nat) :=
  nd._features.map (fun p => (p.1, (p.2.headD []).length))

/-- Two node types: type 0 at ilocs `[0, 3)`, type 1 at `[3, 8)`. -/
def sharedEx8 : List (Nat × DataFrame Nat) :=
  [(0, ⟨[10, 11, 12], [], [], []⟩), (1, ⟨[20, 21, 22, 23, 24], [], [], []⟩)]

/-- One feature row per node of each type. -/
def featuresEx8 : List (Nat × List (List Int)) :=
  [(0, [[1], [2], [3]]), (1, [[4], [5], [6], [7], [8]])]

/-- The node store built from `sharedEx8` and `featuresEx8`. -/
def ndEx8 : NodeData Nat Nat :=
  match NodeData.construct sharedEx8 featuresEx8 with
  | Except.ok nd => nd
  | Except.error _ =>
      NodeData.mk (ElementData.mk (ExternalIdIndex.ofList [])
        (ExternalIdIndex.ofList []) [] [] [] [] []) []

/-- The per-type adjacency working state: six Python dicts keyed by the node
ilocs `0 .. num_nodes - 1`, represented positionally (entry `k` of each list
is the dict value at key `k`). -/
structure AdjState where
  in_d : List (List Int)
  out_d : List (List Int)
  und : List (List Int)
  in_w : List (List Int)
  out_w : List (List Int)
  und_w : List (List Int)
deriving DecidableEq

/-- Embeds `dict[k].append(v)` (the key is always present in the code's dicts). -/
def appendAt (v : Int) : List (List Int) → Nat → List (List Int)
  | [], _ => []
  | l :: ls, 0 => (l ++ [v]) :: ls
  | l :: ls, k + 1 => l :: appendAt v ls k

/-- Embeds `dict((i, []) for i in range(num_nodes))`, six times. -/
def adjInit (num_nodes : Nat) : AdjState :=
  ⟨List.replicate num_nodes [], List.replicate num_nodes [],
   List.replicate num_nodes [], List.replicate num_nodes [],
   List.replicate num_nodes [], List.replicate num_nodes []⟩

/-- One iteration of the adjacency-building loop for the edge
`(src, tgt, wt)`: append into the incoming, outgoing and undirected views
(the undirected view gets the reverse entry only when `src != tgt`); a `src`
or `tgt` outside `range(num_nodes)` raises a `KeyError` (`none`). -/
def adjStep (num_nodes : Nat) (st : AdjState) (row : Int × Int × Int) :
    Option AdjState :=
  let src := row.1
  let tgt := row.2.1
  let wt := row.2.2
  if 0 ≤ src ∧ src < (num_nodes : Int) ∧ 0 ≤ tgt ∧ tgt < (num_nodes : Int) then
    let st1 : AdjState :=
      { st with
        in_d := appendAt src st.in_d tgt.toNat
        in_w := appendAt wt st.in_w tgt.toNat
        out_d := appendAt tgt st.out_d src.toNat
        out_w := appendAt wt st.out_w src.toNat
        und := appendAt src st.und tgt.toNat
        und_w := appendAt wt st.und_w tgt.toNat }
    if src ≠ tgt then
      some { st1 with
        und := appendAt tgt st1.und src.toNat
        und_w := appendAt wt st1.und_w src.toNat }
    else
      some st1
  else
    none

/-- The whole per-type pass: one `adjStep` per edge row, in row order. -/
def buildAdj (num_nodes : Nat) (rows : List (Int × Int × Int)) : Option AdjState :=
  rows.foldlM (adjStep num_nodes) (adjInit num_nodes)

/-- Embeds `zip(type_data[SOURCE], type_data[TARGET], type_data[WEIGHT])`. -/
def dfRows {α : Type u} (df : DataFrame α) : List (Int × Int × Int) :=
  df.source.zip (df.target.zip df.weight)

/-- Embeds `EdgeData.__init__` failures: the base-store error or a `KeyError` from an
edge endpoint outside `range(num_nodes)`. -/
inductive EdgeErr (τ : Type v) (α : Type u) where
  | elem (e : ElemErr τ α)
  | keyError
deriving DecidableEq

/-- Embeds `EdgeData`: the element store, the cached source/target/weight columns,
the sorted type names and the per-type adjacency states (`_adj_by_type t`
packs the six `*_by_type[t]` dicts of the code). -/
structure EdgeData (τ : Type v) (α : Type u) extends ElementData τ α where
  sources : List Int
  targets : List Int
  weights : List Int
  all_type_names : List τ
  _adj_by_type : List (τ × AdjState)
deriving DecidableEq

/-- Embeds `EdgeData.__init__`: build the base store, cache the three shared columns,
and run the adjacency pass for every type in sorted order. -/
def EdgeData.construct {τ : Type v} {α : Type u} [LinearOrder τ] [DecidableEq α]
    (shared : List (τ × DataFrame α)) (num_nodes : Nat) :
    Except (EdgeErr τ α) (EdgeData τ α) :=
  match ElementData.construct shared with
  | Except.error e => Except.error (EdgeErr.elem e)
  | Except.ok base =>
    match (sortedKeys shared).mapM (fun t =>
        (buildAdj num_nodes (dfRows (frameOf shared t))).map (fun st => (t, st))) with
    | none => Except.error EdgeErr.keyError
    | some typed =>
      Except.ok
        { toElementData := base
          sources := base._columns_source
          targets := base._columns_target
          weights := base._columns_weight
          all_type_names := sortedKeys shared
          _adj_by_type := typed }

/-- Embeds `self._edges_in_by_type[type_name]` (`none` for an unknown type). -/
def EdgeData._edges_in_by_type {τ : Type v} {α : Type u} [DecidableEq τ]
    (ed : EdgeData τ α) (t : τ) : Option (List (List Int)) :=
  (alookup ed._adj_by_type t).map AdjState.in_d

/-- Embeds `self._edges_out_by_type[type_name]`. -/
def EdgeData._edges_out_by_type {τ : Type v} {α : Type u} [DecidableEq τ]
    (ed : EdgeData τ α) (t : τ) : Option (List (List Int)) :=
  (alookup ed._adj_by_type t).map AdjState.out_d

/-- Embeds `self._edges_by_type[type_name]` (the undirected-combined view). -/
def EdgeData._edges_by_type {τ : Type v} {α : Type u} [DecidableEq τ]
    (ed : EdgeData τ α) (t : τ) : Option (List (List Int)) :=
  (alookup ed._adj_by_type t).map AdjState.und

/-- Embeds `self._weights_in_by_type[type_name]`. -/
def EdgeData._weights_in_by_type {τ : Type v} {α : Type u} [DecidableEq τ]
    (ed : EdgeData τ α) (t : τ) : Option (List (List Int)) :=
  (alookup ed._adj_by_type t).map AdjState.in_w

/-- Embeds `self._weights_out_by_type[type_name]`. -/
def EdgeData._weights_out_by_type {τ : Type v} {α : Type u} [DecidableEq τ]
    (ed : EdgeData τ α) (t : τ) : Option (List (List Int)) :=
  (alookup ed._adj_by_type t).map AdjState.out_w

/-- Embeds `self._weights_by_type[type_name]`. -/
def EdgeData._weights_by_type {τ : Type v} {α : Type u} [DecidableEq τ]
    (ed : EdgeData τ α) (t : τ) : Option (List (List Int)) :=
  (alookup ed._adj_by_type t).map AdjState.und_w

/-- The failures of the edge queries: a `KeyError` (unknown type name or node
key) or the "expected at least one of ins or outs" `ValueError`. -/
inductive AdjErr where
  | keyError
  | needInsOrOuts
deriving DecidableEq

/-- A dict access that raises `KeyError` on a missing key. -/
def keyed {β : Type u} : Option β → Except AdjErr β
  | some b => Except.ok b
  | none => Except.error AdjErr.keyError

/-- Embeds `_adj_lookup`: undirected table if both flags, else incoming, else
outgoing, else the usage error. -/
def EdgeData._adj_lookup {τ : Type v} {α : Type u} [DecidableEq τ]
    (ed : EdgeData τ α) (type_name : τ) (ins outs : Bool) :
    Except AdjErr (List (List Int)) :=
  if ins && outs then keyed (ed._edges_by_type type_name)
  else if ins then keyed (ed._edges_in_by_type type_name)
  else if outs then keyed (ed._edges_out_by_type type_name)
  else Except.error AdjErr.needInsOrOuts

/-- Embeds `_weight_lookup`: the same selection over the three weight tables. -/
def EdgeData._weight_lookup {τ : Type v} {α : Type u} [DecidableEq τ]
    (ed : EdgeData τ α) (type_name : τ) (ins outs : Bool) :
    Except AdjErr (List (List Int)) :=
  if ins && outs then keyed (ed._weights_by_type type_name)
  else if ins then keyed (ed._weights_in_by_type type_name)
  else if outs then keyed (ed._weights_out_by_type type_name)
  else Except.error AdjErr.needInsOrOuts

/-- Embeds `degrees`: a `defaultdict(int, ...)` over the selected table — the length
of the neighbour list at each present key, `0` at any absent key. -/
def EdgeData.degrees {τ : Type v} {α : Type u} [DecidableEq τ]
    (ed : EdgeData τ α) (type_name : τ) (ins outs : Bool) :
    Except AdjErr (Int → Nat) :=
  (ed._adj_lookup type_name ins outs).map (fun adj => fun key =>
    if 0 ≤ key ∧ key < (adj.length : Int)
    then ((adj[key.toNat]?).getD []).length else 0)

/-- Embeds `neighbour_ilocs`: index the selected adjacency table at the node
(`KeyError` when the node iloc is not a key of the dict). -/
def EdgeData.neighbour_ilocs {τ : Type v} {α : Type u} [DecidableEq τ]
    (ed : EdgeData τ α) (node_id : Int) (type_name : τ) (ins outs : Bool) :
    Except AdjErr (List Int) :=
  match ed._adj_lookup type_name ins outs with
  | Except.error e => Except.error e
  | Except.ok adj =>
    if 0 ≤ node_id ∧ node_id < (adj.length : Int) then
      Except.ok ((adj[node_id.toNat]?).getD [])
    else Except.error AdjErr.keyError

/-- Embeds `neighbour_weights`: the same selection over the weight tables. -/
def EdgeData.neighbour_weights {τ : Type v} {α : Type u} [DecidableEq τ]
    (ed : EdgeData τ α) (node_id : Int) (type_name : τ) (ins outs : Bool) :
    Except AdjErr (List Int) :=
  match ed._weight_lookup type_name ins outs with
  | Except.error e => Except.error e
  | Except.ok adj =>
    if 0 ≤ node_id ∧ node_id < (adj.length : Int) then
      Except.ok ((adj[node_id.toNat]?).getD [])
    else Except.error AdjErr.keyError

/-- The `(neighbour, weight)` pairs node `k` receives in the incoming view:
one `(src, w)` per edge `(src, tgt, w)` with `tgt = k`, in row order. -/
def inPairs (rows : List (Int × Int × Int)) (k : Nat) : List (Int × Int) :=
  rows.filterMap (fun r => if r.2.1 = (k : Int) then some (r.1, r.2.2) else none)

/-- The pairs node `k` receives in the outgoing view: one `(tgt, w)` per edge
with `src = k`, in row order. -/
def outPairs (rows : List (Int × Int × Int)) (k : Nat) : List (Int × Int) :=
  rows.filterMap (fun r => if r.1 = (k : Int) then some (r.2.1, r.2.2) else none)

/-- The pairs node `k` receives in the undirected view: `(src, w)` when it is
the target, plus `(tgt, w)` when it is the source of a non-loop — so a
self-loop contributes exactly one pair. -/
def undPairs (rows : List (Int × Int × Int)) (k : Nat) : List (Int × Int) :=
  (rows.map (fun r =>
    (if r.2.1 = (k : Int) then [(r.1, r.2.2)] else []) ++
    (if r.1 = (k : Int) ∧ r.1 ≠ r.2.1 then [(r.2.1, r.2.2)] else []))).flatten

/-- One edge type with edges `(0,1,1), (1,2,2), (2,2,3)` over 3 nodes. -/
def sharedEx2 : List (Nat × DataFrame Nat) :=
  [(0, ⟨[100, 101, 102], [0, 1, 2], [1, 2, 2], [1, 2, 3]⟩)]

/-- The edge store built from `sharedEx2` with `num_nodes = 3`. -/
def edEx2 : EdgeData Nat Nat :=
  match EdgeData.construct sharedEx2 3 with
  | Except.ok ed => ed
  | Except.error _ =>
      EdgeData.mk (ElementData.mk (ExternalIdIndex.ofList [])
        (ExternalIdIndex.ofList []) [] [] [] [] []) [] [] [] [] []

/-! ### Lemmas, claim theorems, witnesses and counterexamples -/

example : ExternalIdIndex.construct [5, 7, 9] =
    Except.ok (ExternalIdIndex.ofList [5, 7, 9]) := by decide

example : (ExternalIdIndex.ofList [5, 7, 9]).to_iloc [7, 1] true false =
    Except.ok [1, 255] := by decide

example : (ExternalIdIndex.ofList [5, 7, 9]).to_iloc [7, 1] false false =
    Except.ok [1, -1] := by decide

example : (ExternalIdIndex.ofList [5, 7, 9]).to_iloc [7, 1] true true =
    Except.error [1] := by decide

example : (ExternalIdIndex.ofList [5, 7, 9]).from_iloc [3] = none := by decide

example : (ExternalIdIndex.ofList [5, 7, 9]).from_iloc [-1] = some [9] := by decide

example : ExternalIdIndex.construct [5, 7, 5, 7, 9] = Except.error [5, 7] := by decide

theorem duplicatedFlagged_eq_nil {α : Type u} [DecidableEq α] (seen l : List α) :
    duplicatedFlagged seen l = [] ↔ l.Nodup ∧ ∀ x ∈ l, x ∉ seen := by
  induction l generalizing seen with
  | nil => simp [duplicatedFlagged]
  | cons x xs ih =>
    by_cases hx : x ∈ seen
    · simp only [duplicatedFlagged, if_pos hx]
      constructor
      · intro h; cases h
      · rintro ⟨_, hall⟩
        exact absurd hx (hall x (by simp))
    · simp only [duplicatedFlagged, if_neg hx]
      rw [ih]
      constructor
      · rintro ⟨hnd, hall⟩
        have hxxs : x ∉ xs := fun hmem => (hall x hmem) (by simp)
        refine ⟨List.nodup_cons.mpr ⟨hxxs, hnd⟩, ?_⟩
        intro y hy
        rcases List.mem_cons.mp hy with rfl | hy2
        · exact hx
        · intro hys
          exact (hall y hy2) (by simp [hys])
      · rintro ⟨hnd, hall⟩
        rcases List.nodup_cons.mp hnd with ⟨hxxs, hnd2⟩
        refine ⟨hnd2, ?_⟩
        intro y hy hmem
        rcases List.mem_cons.mp hmem with rfl | hys
        · exact hxxs hy
        · exact (hall y (by simp [hy])) hys

theorem mem_duplicatedFlagged {α : Type u} [DecidableEq α] (a : α) (seen l : List α) :
    a ∈ duplicatedFlagged seen l ↔ (a ∈ l ∧ a ∈ seen) ∨ 2 ≤ l.count a := by
  induction l generalizing seen with
  | nil => simp [duplicatedFlagged]
  | cons x xs ih =>
    by_cases hax : a = x
    · subst hax
      by_cases hx : a ∈ seen
      · simp only [duplicatedFlagged, if_pos hx, List.mem_cons]
        simp [hx]
      · simp only [duplicatedFlagged, if_neg hx]
        rw [ih]
        constructor
        · rintro (⟨hmem, _⟩ | hcnt)
          · right
            have := List.count_pos_iff.mpr hmem
            rw [List.count_cons_self]
            omega
          · right
            rw [List.count_cons_self]
            omega
        · rintro (⟨_, hseen⟩ | hcnt)
          · exact absurd hseen hx
          · rw [List.count_cons_self] at hcnt
            by_cases hmem : a ∈ xs
            · exact Or.inl ⟨hmem, by simp⟩
            · have h0 : xs.count a = 0 := List.count_eq_zero.mpr hmem
              omega
    · by_cases hx : x ∈ seen
      · simp only [duplicatedFlagged, if_pos hx, List.mem_cons]
        rw [ih]
        simp only [List.mem_cons, hax, false_or, List.count_cons_of_ne hax]
      · simp only [duplicatedFlagged, if_neg hx]
        rw [ih]
        simp only [List.mem_cons, hax, false_or, List.count_cons_of_ne hax]

theorem uniqueFirst_eq_nil {α : Type u} [DecidableEq α] (l : List α) :
    uniqueFirst l = [] ↔ l = [] := by
  cases l <;> simp [uniqueFirst]

theorem mem_uniqueFirst {α : Type u} [DecidableEq α] (a : α) (l : List α) :
    a ∈ uniqueFirst l ↔ a ∈ l := by
  induction l with
  | nil => simp [uniqueFirst]
  | cons x xs ih =>
    by_cases hax : a = x
    · subst hax; simp [uniqueFirst]
    · simp [uniqueFirst, hax, List.mem_filter, ih]

theorem uniqueFirst_nodup {α : Type u} [DecidableEq α] (l : List α) :
    (uniqueFirst l).Nodup := by
  induction l with
  | nil => simp [uniqueFirst]
  | cons x xs ih =>
    refine List.nodup_cons.mpr ⟨?_, ?_⟩
    · intro hmem
      have := (List.mem_filter.mp hmem).2
      simp at this
    · exact ih.filter _

theorem lt_two_pow_min_scalar_type {n : Nat} (h : n < 2 ^ 64) :
    n < 2 ^ min_scalar_type n := by
  have e8 : (2 : Nat) ^ 8 = 256 := by norm_num
  have e16 : (2 : Nat) ^ 16 = 65536 := by norm_num
  have e32 : (2 : Nat) ^ 32 = 4294967296 := by norm_num
  unfold min_scalar_type
  split
  · omega
  · split
    · omega
    · split
      · omega
      · omega

theorem min_scalar_type_min {n w : Nat} (hw : w = 8 ∨ w = 16 ∨ w = 32 ∨ w = 64)
    (h : n < 2 ^ w) : min_scalar_type n ≤ w := by
  have e8 : (2 : Nat) ^ 8 = 256 := by norm_num
  have e16 : (2 : Nat) ^ 16 = 65536 := by norm_num
  have e32 : (2 : Nat) ^ 32 = 4294967296 := by norm_num
  have e64 : (2 : Nat) ^ 64 = 18446744073709551616 := by norm_num
  unfold min_scalar_type
  repeat' split
  all_goals rcases hw with rfl | rfl | rfl | rfl <;> omega

theorem neg_one_emod_eq {M : Int} (hM : 0 < M) : (-1 : Int) % M = M - 1 := by
  have h1 : (-1 : Int) = M - 1 + M * (-1) := by ring
  rw [h1, Int.add_mul_emod_self_left, Int.emod_eq_of_lt (by omega) (by omega)]

theorem pandasGet_isSome {α : Type u} (index : List α) (i : Int) :
    (pandasGet index i).isSome ↔
      (-(index.length : Int) ≤ i ∧ i < (index.length : Int)) := by
  unfold pandasGet
  by_cases h0 : 0 ≤ i
  · rw [if_pos h0]
    have hiff : (index[i.toNat]?).isSome ↔ i.toNat < index.length := by
      rw [Option.isSome_iff_ne_none, ne_eq, List.getElem?_eq_none_iff]
      omega
    rw [hiff]
    omega
  · rw [if_neg h0]
    by_cases h1 : 0 ≤ (index.length : Int) + i
    · rw [if_pos h1]
      have hiff : (index[((index.length : Int) + i).toNat]?).isSome ↔
          ((index.length : Int) + i).toNat < index.length := by
        rw [Option.isSome_iff_ne_none, ne_eq, List.getElem?_eq_none_iff]
        omega
      rw [hiff]
      omega
    · rw [if_neg h1]
      simp only [Option.isSome_none, Bool.false_eq_true, false_iff]
      omega

theorem mapM_option_isSome {γ : Type v} {δ : Type u} (f : γ → Option δ) (l : List γ) :
    (l.mapM f).isSome ↔ ∀ a ∈ l, (f a).isSome := by
  induction l with
  | nil =>
    rw [List.mapM_nil]
    simp
  | cons x xs ih =>
    have hstep : ((x :: xs).mapM f).isSome ↔ (f x).isSome ∧ (xs.mapM f).isSome := by
      rw [List.mapM_cons]
      cases f x <;> cases xs.mapM f <;> simp
    rw [hstep, ih, List.forall_mem_cons]

theorem zip_self_map {γ : Type v} {δ : Type u} (l : List γ) (f : γ → δ) :
    l.zip (l.map f) = l.map (fun a => (a, f a)) := by
  induction l with
  | nil => rfl
  | cons x xs ih => simp [ih]

theorem filterMap_reject {γ : Type v} (p : γ → Prop) [DecidablePred p] (l : List γ) :
    (l.filterMap (fun a => if p a then none else some a)) =
      l.filter (fun a => decide (¬ p a)) := by
  induction l with
  | nil => rfl
  | cons x xs ih =>
    by_cases hx : p x <;> simp [List.filterMap_cons, List.filter_cons, hx, ih]

@[simp] theorem index_ofList {α : Type u} (ids : List α) :
    (ExternalIdIndex.ofList ids)._index = ids := rfl

@[simp] theorem dtype_ofList {α : Type u} (ids : List α) :
    (ExternalIdIndex.ofList ids)._dtype = min_scalar_type ids.length := rfl

@[simp] theorem length_ofList {α : Type u} (ids : List α) :
    (ExternalIdIndex.ofList ids).length = ids.length := rfl

theorem construct_eq {α : Type u} [DecidableEq α] (ids : List α) :
    ExternalIdIndex.construct ids =
      (if ids.Nodup then Except.ok (ExternalIdIndex.ofList ids)
       else Except.error (uniqueFirst (duplicatedFlagged [] ids))) := by
  by_cases hnd : ids.Nodup
  · rw [if_pos hnd]
    unfold ExternalIdIndex.construct
    have hdup : uniqueFirst (duplicatedFlagged ([] : List α) ids) = [] := by
      rw [uniqueFirst_eq_nil, duplicatedFlagged_eq_nil]
      exact ⟨hnd, by simp⟩
    simp only [hdup]
    rfl
  · rw [if_neg hnd]
    unfold ExternalIdIndex.construct
    have hdup : (uniqueFirst (duplicatedFlagged ([] : List α) ids)).isEmpty = false := by
      rw [List.isEmpty_eq_false]
      intro h
      rw [uniqueFirst_eq_nil, duplicatedFlagged_eq_nil] at h
      exact hnd h.1
    simp only [hdup]
    rfl

theorem externalIdIndex_construct_ok {α : Type u} [DecidableEq α] {ids : List α} {idx : ExternalIdIndex α}
    (h : ExternalIdIndex.construct ids = Except.ok idx) :
    ids.Nodup ∧ idx = ExternalIdIndex.ofList ids := by
  rw [construct_eq] at h
  by_cases hnd : ids.Nodup
  · rw [if_pos hnd] at h
    injection h with h2
    exact ⟨hnd, h2.symm⟩
  · rw [if_neg hnd] at h
    cases h

theorem construct_error {α : Type u} [DecidableEq α] {ids es : List α}
    (h : ExternalIdIndex.construct ids = Except.error es) :
    ¬ ids.Nodup ∧ es = uniqueFirst (duplicatedFlagged [] ids) := by
  rw [construct_eq] at h
  by_cases hnd : ids.Nodup
  · rw [if_pos hnd] at h
    cases h
  · rw [if_neg hnd] at h
    injection h with h2
    exact ⟨hnd, h2.symm⟩

theorem construct_error_iff {α : Type u} [DecidableEq α] (ids : List α) :
    (∃ es, ExternalIdIndex.construct ids = Except.error es) ↔ ¬ ids.Nodup := by
  rw [construct_eq]
  by_cases hnd : ids.Nodup <;> simp [hnd]

theorem require_valid_indexer {α : Type u} [DecidableEq α] (ids qs : List α) :
    (ExternalIdIndex.ofList ids).require_valid qs
        (ExternalIdIndex.get_indexer ids qs) =
      (if qs.filter (fun a => decide (a ∉ ids)) = [] then Except.ok ()
       else Except.error (qs.filter (fun a => decide (a ∉ ids)))) := by
  unfold ExternalIdIndex.require_valid ExternalIdIndex.get_indexer
  rw [zip_self_map, List.filterMap_map]
  have hfun : ((fun p : α × Int =>
        if 0 ≤ p.2 ∧ p.2 < ((ExternalIdIndex.ofList ids).length : Int) then none
        else some p.1) ∘
        (fun a => (a, if a ∈ ids then ((ids.indexOf a : Nat) : Int) else -1)))
      = fun a => if a ∈ ids then none else some a := by
    funext a
    by_cases ha : a ∈ ids
    · have hlt : ids.indexOf a < ids.length := List.indexOf_lt_length.mpr ha
      simp only [Function.comp_apply, if_pos ha, length_ofList]
      rw [if_pos]
      refine ⟨Int.natCast_nonneg _, ?_⟩
      exact_mod_cast hlt
    · simp only [Function.comp_apply, if_neg ha, length_ofList]
      rw [if_neg]
      intro hcon
      have := hcon.1
      omega
  rw [hfun, filterMap_reject (fun a => a ∈ ids)]
  by_cases hfe : qs.filter (fun a => decide (a ∉ ids)) = []
  · rw [if_pos hfe]
    have : (qs.filter (fun a => decide (a ∉ ids))).isEmpty = true := by
      rw [List.isEmpty_eq_true]
      exact hfe
    rw [if_pos this]
  · rw [if_neg hfe]
    have : ¬ ((qs.filter (fun a => decide (a ∉ ids))).isEmpty = true) := by
      rw [List.isEmpty_eq_true]
      exact hfe
    rw [if_neg this]

theorem to_iloc_strict_error {α : Type u} [DecidableEq α] (idx : ExternalIdIndex α)
    (qs es : List α) (smaller_type : Bool)
    (h : idx.require_valid qs (ExternalIdIndex.get_indexer idx._index qs) =
      Except.error es) :
    idx.to_iloc qs smaller_type true = Except.error es := by
  unfold ExternalIdIndex.to_iloc
  rw [if_pos rfl, h]

theorem to_iloc_strict_ok {α : Type u} [DecidableEq α] (idx : ExternalIdIndex α)
    (qs : List α) (smaller_type : Bool)
    (h : idx.require_valid qs (ExternalIdIndex.get_indexer idx._index qs) =
      Except.ok ()) :
    idx.to_iloc qs smaller_type true = idx.to_iloc qs smaller_type false := by
  unfold ExternalIdIndex.to_iloc
  rw [if_pos rfl, h]
  rfl

theorem to_iloc_eval {α : Type u} [DecidableEq α] (ids qs : List α)
    (hlen : ids.length < 2 ^ 64) :
    ((ExternalIdIndex.ofList ids).to_iloc qs true false = Except.ok (qs.map (fun a =>
        if a ∈ ids then ((ids.indexOf a : Nat) : Int)
        else 2 ^ min_scalar_type ids.length - 1))) ∧
    ((ExternalIdIndex.ofList ids).to_iloc qs false false = Except.ok (qs.map (fun a =>
        if a ∈ ids then ((ids.indexOf a : Nat) : Int) else -1))) := by
  have hpow : ids.length < 2 ^ min_scalar_type ids.length := lt_two_pow_min_scalar_type hlen
  have hMpos : (0 : Int) < 2 ^ min_scalar_type ids.length := by positivity
  constructor
  · have hred : (ExternalIdIndex.ofList ids).to_iloc qs true false =
        Except.ok ((ExternalIdIndex.get_indexer ids qs).map
          (fun i => i.emod (2 ^ min_scalar_type ids.length))) := rfl
    rw [hred]
    congr 1
    unfold ExternalIdIndex.get_indexer
    rw [List.map_map]
    apply List.map_congr_left
    intro a _
    simp only [Function.comp_apply]
    by_cases hm : a ∈ ids
    · rw [if_pos hm, if_pos hm]
      have h1 : ids.indexOf a < 2 ^ min_scalar_type ids.length :=
        lt_trans (List.indexOf_lt_length.mpr hm) hpow
      have h2 : ((ids.indexOf a : Nat) : Int) < 2 ^ min_scalar_type ids.length := by
        exact_mod_cast h1
      exact Int.emod_eq_of_lt (Int.natCast_nonneg _) h2
    · rw [if_neg hm, if_neg hm]
      exact neg_one_emod_eq hMpos
  · rfl

theorem from_iloc_nat {α : Type u} (idx : ExternalIdIndex α) (p : Nat) :
    idx.from_iloc [(p : Int)] = (idx._index[p]?).map (fun a => [a]) := by
  show ([(p : Int)].mapM (pandasGet idx._index)) = _
  rw [List.mapM_cons, List.mapM_nil]
  unfold pandasGet
  rw [if_pos (by omega : (0 : Int) ≤ (p : Nat))]
  have : ((p : Nat) : Int).toNat = p := by omega
  rw [this]
  cases idx._index[p]? <;> simp

/-- C1: on a constructed Identifier Index, `to_iloc` maps each known identifier
to its integer location; each unknown identifier maps to the maximum value of
the compact width when `smaller_type` is true and to `-1` when it is false; and
with `strict` set, the presence of any unknown identifier makes the call fail
with `require_valid`'s unknown-identifier error (naming the missing ids)
instead of returning a sentinel. -/
theorem C1_to_iloc_sentinel {α : Type u} [DecidableEq α] (ids qs : List α)
    (idx : ExternalIdIndex α) (hc : ExternalIdIndex.construct ids = Except.ok idx)
    (hlen : ids.length < 2 ^ 64) :
    (idx.to_iloc qs true false = Except.ok (qs.map (fun a =>
        if a ∈ ids then ((ids.indexOf a : Nat) : Int) else 2 ^ idx._dtype - 1))) ∧
    (idx.to_iloc qs false false = Except.ok (qs.map (fun a =>
        if a ∈ ids then ((ids.indexOf a : Nat) : Int) else -1))) ∧
    ((∃ a ∈ qs, a ∉ ids) → ∀ smaller_type : Bool,
        idx.to_iloc qs smaller_type true =
          Except.error (qs.filter (fun a => decide (a ∉ ids)))) ∧
    ((∀ a ∈ qs, a ∈ ids) → ∀ smaller_type : Bool,
        idx.to_iloc qs smaller_type true = idx.to_iloc qs smaller_type false) := by
  obtain ⟨hnd, rfl⟩ := externalIdIndex_construct_ok hc
  refine ⟨(to_iloc_eval ids qs hlen).1, (to_iloc_eval ids qs hlen).2, ?_, ?_⟩
  · rintro ⟨a, ha, hna⟩ smaller_type
    have hne : qs.filter (fun a => decide (a ∉ ids)) ≠ [] := by
      intro h
      rw [List.filter_eq_nil_iff] at h
      have hh := h a ha
      simp at hh
      exact hna hh
    apply to_iloc_strict_error
    rw [index_ofList, require_valid_indexer, if_neg hne]
  · intro hall smaller_type
    have hfe : qs.filter (fun a => decide (a ∉ ids)) = [] := by
      rw [List.filter_eq_nil_iff]
      intro a ha
      simpa using hall a ha
    apply to_iloc_strict_ok
    rw [index_ofList, require_valid_indexer, if_pos hfe]

/-- C1 witness: the index over `[5, 7]` (width 8), queried at `[7, 9]`. -/
theorem C1_witness :
    ExternalIdIndex.construct [5, 7] = Except.ok (ExternalIdIndex.ofList [5, 7]) ∧
    ([5, 7].length < 2 ^ 64) ∧
    (((ExternalIdIndex.ofList [5, 7]).to_iloc [7, 9] true false =
        Except.ok ([7, 9].map (fun a =>
          if a ∈ [5, 7] then (([5, 7].indexOf a : Nat) : Int)
          else 2 ^ (ExternalIdIndex.ofList [5, 7])._dtype - 1))) ∧
      ((ExternalIdIndex.ofList [5, 7]).to_iloc [7, 9] false false =
        Except.ok ([7, 9].map (fun a =>
          if a ∈ [5, 7] then (([5, 7].indexOf a : Nat) : Int) else -1))) ∧
      ((∃ a ∈ [7, 9], a ∉ [5, 7]) → ∀ smaller_type : Bool,
          (ExternalIdIndex.ofList [5, 7]).to_iloc [7, 9] smaller_type true =
            Except.error ([7, 9].filter (fun a => decide (a ∉ [5, 7])))) ∧
      ((∀ a ∈ [7, 9], a ∈ [5, 7]) → ∀ smaller_type : Bool,
          (ExternalIdIndex.ofList [5, 7]).to_iloc [7, 9] smaller_type true =
            (ExternalIdIndex.ofList [5, 7]).to_iloc [7, 9] smaller_type false)) :=
  ⟨by decide, by decide,
    C1_to_iloc_sentinel [5, 7] [7, 9] (ExternalIdIndex.ofList [5, 7])
      (by decide) (by decide)⟩

/-- C4 counterexample: over 256 identifiers the code derives the width for the
length `n = 256` (uint16), while the minimal width holding `n - 1 = 255` (the
largest valid iloc) is uint8 — so the claimed width is not the one derived. -/
theorem C4_counterexample :
    ExternalIdIndex.construct (List.range 256) =
        Except.ok (ExternalIdIndex.ofList (List.range 256)) ∧
    (ExternalIdIndex.ofList (List.range 256))._dtype = 16 ∧
    min_scalar_type ((List.range 256).length - 1) = 8 ∧
    (ExternalIdIndex.ofList (List.range 256))._dtype ≠
      min_scalar_type ((List.range 256).length - 1) := by
  refine ⟨?_, ?_, ?_, ?_⟩
  · rw [construct_eq, if_pos (List.nodup_range _)]
  · rw [dtype_ofList, List.length_range]
    decide
  · rw [List.length_range]
    decide
  · rw [dtype_ofList, List.length_range]
    decide

/-- C4 (amended): the compact width derived at construction is the minimal
unsigned-integer width sized to hold `n` — the index length itself — rather
than `n - 1`; among the available widths it is the least one holding `n`. -/
theorem C4_amended_width {α : Type u} [DecidableEq α] (ids : List α)
    (idx : ExternalIdIndex α) (hc : ExternalIdIndex.construct ids = Except.ok idx)
    (hlen : ids.length < 2 ^ 64) :
    idx._dtype = min_scalar_type ids.length ∧
    ids.length < 2 ^ idx._dtype ∧
    (∀ w, (w = 8 ∨ w = 16 ∨ w = 32 ∨ w = 64) → ids.length < 2 ^ w →
      idx._dtype ≤ w) := by
  obtain ⟨hnd, rfl⟩ := externalIdIndex_construct_ok hc
  refine ⟨rfl, lt_two_pow_min_scalar_type hlen, ?_⟩
  intro w hw hlt
  exact min_scalar_type_min hw hlt

/-- C4 witness: the index over `[5, 7]` has width 8, minimal for length 2. -/
theorem C4_witness :
    ExternalIdIndex.construct [(5 : Nat), 7] =
        Except.ok (ExternalIdIndex.ofList [5, 7]) ∧
    ([(5 : Nat), 7].length < 2 ^ 64) ∧
    ((ExternalIdIndex.ofList [(5 : Nat), 7])._dtype = min_scalar_type [5, 7].length ∧
      [(5 : Nat), 7].length < 2 ^ (ExternalIdIndex.ofList [(5 : Nat), 7])._dtype ∧
      (∀ w, (w = 8 ∨ w = 16 ∨ w = 32 ∨ w = 64) → [(5 : Nat), 7].length < 2 ^ w →
        (ExternalIdIndex.ofList [(5 : Nat), 7])._dtype ≤ w)) :=
  ⟨by decide, by decide,
    C4_amended_width [5, 7] (ExternalIdIndex.ofList [5, 7]) (by decide) (by decide)⟩

/-- C5 counterexample: on the constructed index over `[0]` (length 1), the
out-of-range iloc `1` makes `from_iloc` raise an out-of-bounds error (`none`)
instead of returning some identifier. -/
theorem C5_counterexample :
    ExternalIdIndex.construct [(0 : Nat)] = Except.ok (ExternalIdIndex.ofList [0]) ∧
    (ExternalIdIndex.ofList [(0 : Nat)]).from_iloc [1] = none :=
  ⟨by decide, by decide⟩

/-- C5 (amended): `from_iloc` does not validate its input, but it only avoids
raising on ilocs in `[-length, length)`: a negative iloc in `[-length, 0)`
wraps once from the end and returns that identifier, while any iloc at or past
`length` (or below `-length`) raises an out-of-bounds error (`none`). -/
theorem C5_from_iloc_bounds {α : Type u} (idx : ExternalIdIndex α) (ilocs : List Int) :
    ((idx.from_iloc ilocs).isSome ↔
      ∀ i ∈ ilocs, -(idx.length : Int) ≤ i ∧ i < (idx.length : Int)) ∧
    (∀ i : Int, -(idx.length : Int) ≤ i → i < 0 →
      idx.from_iloc [i] =
        (idx._index[((idx.length : Int) + i).toNat]?).map (fun a => [a])) := by
  constructor
  · unfold ExternalIdIndex.from_iloc
    rw [mapM_option_isSome]
    exact forall₂_congr (fun i _ => pandasGet_isSome _ _)
  · intro i h1 h2
    have hL : (idx.length : Int) = (idx._index.length : Int) := rfl
    show ([i].mapM (pandasGet idx._index)) = _
    rw [List.mapM_cons, List.mapM_nil]
    unfold pandasGet
    rw [if_neg (by omega), if_pos (by rw [← hL]; omega)]
    rw [← hL]
    cases idx._index[((idx.length : Int) + i).toNat]? <;> simp

/-- C7: on a constructed Identifier Index, the iloc translation round-trips:
for every known identifier, `from_iloc (to_iloc [id])` yields `[id]`. -/
theorem C7_round_trip {α : Type u} [DecidableEq α] (ids : List α)
    (idx : ExternalIdIndex α) (hc : ExternalIdIndex.construct ids = Except.ok idx)
    (hlen : ids.length < 2 ^ 64) (a : α) (ha : a ∈ ids) :
    idx.to_iloc [a] true false = Except.ok [((ids.indexOf a : Nat) : Int)] ∧
    idx.from_iloc [((ids.indexOf a : Nat) : Int)] = some [a] := by
  obtain ⟨hnd, rfl⟩ := externalIdIndex_construct_ok hc
  constructor
  · have h := (to_iloc_eval ids [a] hlen).1
    simpa [ha] using h
  · rw [from_iloc_nat, index_ofList, List.getElem?_indexOf ha]
    rfl

/-- C7 witness: round-trip of the identifier `7` in the index over `[5, 7]`. -/
theorem C7_witness :
    ExternalIdIndex.construct [5, 7] = Except.ok (ExternalIdIndex.ofList [5, 7]) ∧
    ([5, 7].length < 2 ^ 64) ∧ (7 ∈ [5, 7]) ∧
    ((ExternalIdIndex.ofList [5, 7]).to_iloc [7] true false =
        Except.ok [(([5, 7].indexOf 7 : Nat) : Int)] ∧
      (ExternalIdIndex.ofList [5, 7]).from_iloc [(([5, 7].indexOf 7 : Nat) : Int)] =
        some [7]) :=
  ⟨by decide, by decide, by decide,
    C7_round_trip [5, 7] (ExternalIdIndex.ofList [5, 7]) (by decide) (by decide)
      7 (by decide)⟩

/-- C10: on a constructed Identifier Index, the compact-width sentinel (the
dtype maximum, the wrap of `-1`) is at least the index length because the
dtype is sized to hold the length itself; hence it never collides with the
iloc of a known identifier, and `is_valid` flags it false. -/
theorem C10_sentinel_no_collision {α : Type u} [DecidableEq α] (ids : List α)
    (idx : ExternalIdIndex α) (hc : ExternalIdIndex.construct ids = Except.ok idx)
    (hlen : ids.length < 2 ^ 64) :
    ((idx.length : Int) ≤ 2 ^ idx._dtype - 1) ∧
    (∀ a, a ∉ ids → idx.to_iloc [a] true false =
        Except.ok [2 ^ idx._dtype - 1]) ∧
    (∀ a, a ∈ ids → ((ids.indexOf a : Nat) : Int) ≠ 2 ^ idx._dtype - 1) ∧
    idx.is_valid [2 ^ idx._dtype - 1] = [false] := by
  obtain ⟨hnd, rfl⟩ := externalIdIndex_construct_ok hc
  have hpow : ids.length < 2 ^ min_scalar_type ids.length :=
    lt_two_pow_min_scalar_type hlen
  have hpowI : (ids.length : Int) < (2 : Int) ^ min_scalar_type ids.length := by
    exact_mod_cast hpow
  refine ⟨?_, ?_, ?_, ?_⟩
  · simp only [length_ofList, dtype_ofList]
    omega
  · intro a ha
    have h := (to_iloc_eval ids [a] hlen).1
    simpa [ha] using h
  · intro a ha
    have hidx : ids.indexOf a < ids.length := List.indexOf_lt_length.mpr ha
    have hidxI : ((ids.indexOf a : Nat) : Int) < (ids.length : Int) := by
      exact_mod_cast hidx
    simp only [dtype_ofList]
    omega
  · simp only [ExternalIdIndex.is_valid, dtype_ofList, length_ofList, List.map_cons,
      List.map_nil, List.cons.injEq, and_true, decide_eq_false_iff_not]
    intro hcon
    omega

/-- C10 witness: the index over `[5, 7]` has sentinel `255 ≥ 2`. -/
theorem C10_witness :
    ExternalIdIndex.construct [5, 7] = Except.ok (ExternalIdIndex.ofList [5, 7]) ∧
    ([5, 7].length < 2 ^ 64) ∧
    ((((ExternalIdIndex.ofList [5, 7]).length : Int) ≤
        2 ^ (ExternalIdIndex.ofList [5, 7])._dtype - 1) ∧
      (∀ a, a ∉ [5, 7] → (ExternalIdIndex.ofList [5, 7]).to_iloc [a] true false =
          Except.ok [2 ^ (ExternalIdIndex.ofList [5, 7])._dtype - 1]) ∧
      (∀ a, a ∈ [5, 7] → (([5, 7].indexOf a : Nat) : Int) ≠
          2 ^ (ExternalIdIndex.ofList [5, 7])._dtype - 1) ∧
      (ExternalIdIndex.ofList [5, 7]).is_valid
          [2 ^ (ExternalIdIndex.ofList [5, 7])._dtype - 1] = [false]) :=
  ⟨by decide, by decide,
    C10_sentinel_no_collision [5, 7] (ExternalIdIndex.ofList [5, 7])
      (by decide) (by decide)⟩

theorem mapM_singleton {γ : Type v} {δ : Type u} (f : γ → Option δ) (a : γ) (b : δ)
    (h : f a = some b) : [a].mapM f = some [b] := by
  rw [List.mapM_cons, List.mapM_nil, h]
  rfl

theorem rangesFrom_keys {τ : Type v} (l : List (τ × Nat)) :
    ∀ acc, (rangesFrom acc l).map Prod.fst = l.map Prod.fst := by
  induction l with
  | nil => intro acc; rfl
  | cons p rest ih =>
    intro acc
    simp [rangesFrom, ih]

theorem alookup_rangesFrom {τ : Type v} [DecidableEq τ] (l : List (τ × Nat)) :
    ∀ (acc j : Nat) (hj : j < l.length), (l.map Prod.fst).Nodup →
      alookup (rangesFrom acc l) (l.get ⟨j, hj⟩).1 =
        some (acc + ((l.map Prod.snd).take j).sum,
              acc + ((l.map Prod.snd).take (j + 1)).sum) := by
  induction l with
  | nil => intro acc j hj _; simp at hj
  | cons p rest ih =>
    intro acc j hj hnd
    match j with
    | 0 =>
      simp [rangesFrom, alookup]
    | j' + 1 =>
      have hj' : j' < rest.length := by
        simp only [List.length_cons] at hj
        omega
      have hget : ((p :: rest).get ⟨j' + 1, hj⟩) = rest.get ⟨j', hj'⟩ := rfl
      have hp : p.1 ∉ rest.map Prod.fst := (List.nodup_cons.mp (by simpa using hnd)).1
      have hne : ¬ (p.1 = (rest.get ⟨j', hj'⟩).1) := by
        intro he
        apply hp
        rw [he]
        exact List.mem_map_of_mem Prod.fst (rest.get_mem _ _)
      rw [hget]
      simp only [rangesFrom, alookup]
      rw [if_neg hne]
      rw [ih (acc + p.2) j' hj' (List.nodup_cons.mp (by simpa using hnd)).2]
      simp only [List.map_cons, List.take_succ_cons, List.sum_cons]
      rw [Nat.add_assoc, Nat.add_assoc]

theorem npRepeat_length : ∀ (xs : List Int) (counts : List Nat),
    xs.length = counts.length → (npRepeat xs counts).length = counts.sum
  | [], [], _ => rfl
  | [], _ :: _, h => by simp at h
  | _ :: _, [], h => by simp at h
  | x :: xs, c :: cs, h => by
    simp only [npRepeat, List.zip_cons_cons, List.map_cons, List.flatten_cons,
      List.length_append, List.length_replicate, List.sum_cons]
    have hrec := npRepeat_length xs cs (by simpa using h)
    simp only [npRepeat] at hrec
    omega

theorem npRepeat_getElem : ∀ (xs : List Int) (counts : List Nat) (j o : Nat),
    j < counts.length → xs.length = counts.length → o < counts.getD j 0 →
    (npRepeat xs counts)[(counts.take j).sum + o]? = xs[j]?
  | _, [], j, _, hj, _, _ => by simp at hj
  | [], _ :: _, _, _, _, hlen, _ => by simp at hlen
  | x :: xs, c :: cs, 0, o, hj, hlen, ho => by
    have hoc : o < c := by simpa using ho
    simp only [npRepeat, List.zip_cons_cons, List.map_cons, List.flatten_cons,
      List.take_zero, List.sum_nil, Nat.zero_add]
    rw [List.getElem?_append_left (by simpa using hoc)]
    rw [List.getElem?_replicate_of_lt hoc]
    simp
  | x :: xs, c :: cs, j + 1, o, hj, hlen, ho => by
    have hj' : j < cs.length := by
      simp only [List.length_cons] at hj
      omega
    have ho' : o < cs.getD j 0 := by simpa using ho
    simp only [npRepeat, List.zip_cons_cons, List.map_cons, List.flatten_cons,
      List.take_succ_cons, List.sum_cons]
    have hpos : c + ((cs.take j).sum + o) = c + (cs.take j).sum + o := by omega
    rw [← hpos]
    rw [List.getElem?_append_right (by simp)]
    simp only [List.length_replicate, Nat.add_sub_cancel_left]
    have hrec := npRepeat_getElem xs cs j o hj' (by simpa using hlen) ho'
    simp only [npRepeat] at hrec
    rw [hrec]
    simp

theorem take_sum_le (l : List Nat) (j : Nat) : (l.take j).sum ≤ l.sum := by
  conv_rhs => rw [← List.take_append_drop j l]
  rw [List.sum_append]
  omega

theorem sum_take_succ (l : List Nat) (j : Nat) (hj : j < l.length) :
    (l.take (j + 1)).sum = (l.take j).sum + l.getD j 0 := by
  have h1 : l[j]? = some l[j] := List.getElem?_eq_getElem hj
  rw [List.take_succ, List.sum_append, h1]
  simp [List.getD_eq_getElem?_getD, h1]

theorem sortedKeys_perm {τ : Type v} {α : Type u} [LinearOrder τ]
    (shared : List (τ × DataFrame α)) :
    (sortedKeys shared).Perm (shared.map Prod.fst) :=
  List.perm_insertionSort _ _

theorem sortedKeys_nodup {τ : Type v} {α : Type u} [LinearOrder τ]
    (shared : List (τ × DataFrame α)) (h : (shared.map Prod.fst).Nodup) :
    (sortedKeys shared).Nodup :=
  ((sortedKeys_perm shared).nodup_iff).mpr h

theorem sortedKeys_length {τ : Type v} {α : Type u} [LinearOrder τ]
    (shared : List (τ × DataFrame α)) :
    (sortedKeys shared).length = shared.length := by
  rw [(sortedKeys_perm shared).length_eq, List.length_map]

theorem to_iloc_self_range {τ : Type v} [DecidableEq τ] (ts : List τ) (hnd : ts.Nodup)
    (hT : ts.length < 2 ^ 64) :
    (ExternalIdIndex.ofList ts).to_iloc ts true false =
      Except.ok ((List.range ts.length).map (fun j : Nat => (j : Int))) := by
  rw [(to_iloc_eval ts ts hT).1]
  congr 1
  apply List.ext_getElem?
  intro n
  rw [List.getElem?_map, List.getElem?_map]
  by_cases hn : n < ts.length
  · rw [List.getElem?_eq_getElem hn, List.getElem?_range hn]
    simp only [Option.map_some']
    have hmem : ts[n] ∈ ts := List.getElem_mem hn
    rw [if_pos hmem, List.indexOf_getElem hnd n hn]
  · have h1 : ts.length ≤ n := by omega
    rw [List.getElem?_eq_none h1, List.getElem?_eq_none (by simpa using h1)]
    rfl

theorem ElementData.construct_eval {τ : Type v} {α : Type u} [LinearOrder τ]
    [DecidableEq α] (shared : List (τ × DataFrame α))
    (hkeys : (shared.map Prod.fst).Nodup) (hT : shared.length < 2 ^ 64) :
    ElementData.construct shared =
      (if (allLabels shared).Nodup then
        Except.ok
          { _id_index := ExternalIdIndex.ofList (allLabels shared)
            _type_index := ExternalIdIndex.ofList (sortedKeys shared)
            _type_column :=
              npRepeat ((List.range (sortedKeys shared).length).map
                (fun j : Nat => (j : Int))) (typeSizes shared)
            _type_element_ilocs :=
              rangesFrom 0 ((sortedKeys shared).zip (typeSizes shared))
            _columns_source :=
              ((sortedKeys shared).map (fun t => (frameOf shared t).source)).flatten
            _columns_target :=
              ((sortedKeys shared).map (fun t => (frameOf shared t).target)).flatten
            _columns_weight :=
              ((sortedKeys shared).map (fun t => (frameOf shared t).weight)).flatten }
      else
        Except.error (ElemErr.dupIds
          (uniqueFirst (duplicatedFlagged [] (allLabels shared))))) := by
  have hndk : (sortedKeys shared).Nodup := sortedKeys_nodup shared hkeys
  have hTs : (sortedKeys shared).length < 2 ^ 64 := by
    rw [sortedKeys_length]
    exact hT
  unfold ElementData.construct
  rw [construct_eq (allLabels shared)]
  by_cases hnd : (allLabels shared).Nodup
  · rw [if_pos hnd, if_pos hnd]
    rw [construct_eq (sortedKeys shared), if_pos hndk]
    show (match (ExternalIdIndex.ofList (sortedKeys shared)).to_iloc
        (sortedKeys shared) true false with
      | Except.error es => Except.error (ElemErr.dupTypes es)
      | Except.ok type_codes =>
        Except.ok
          (ElementData.mk (ExternalIdIndex.ofList (allLabels shared))
            (ExternalIdIndex.ofList (sortedKeys shared))
            (npRepeat type_codes (typeSizes shared))
            (rangesFrom 0 ((sortedKeys shared).zip (typeSizes shared)))
            (((sortedKeys shared).map (fun t => (frameOf shared t).source)).flatten)
            (((sortedKeys shared).map (fun t => (frameOf shared t).target)).flatten)
            (((sortedKeys shared).map
              (fun t => (frameOf shared t).weight)).flatten))) = _
    rw [to_iloc_self_range (sortedKeys shared) hndk hTs]
  · rw [if_neg hnd, if_neg hnd]

theorem alookup_rangesFrom_zip {τ : Type v} [DecidableEq τ] (ts : List τ)
    (szs : List Nat) (hlen : szs.length = ts.length) (hnd : ts.Nodup)
    (j : Nat) (hj : j < ts.length) :
    alookup (rangesFrom 0 (ts.zip szs)) ts[j] =
      some ((szs.take j).sum, (szs.take (j + 1)).sum) := by
  have hjl : j < (ts.zip szs).length := by
    rw [List.length_zip]
    omega
  have hmapfst : (ts.zip szs).map Prod.fst = ts := List.map_fst_zip ts szs (by omega)
  have hmapsnd : (ts.zip szs).map Prod.snd = szs := List.map_snd_zip ts szs (by omega)
  have hndz : ((ts.zip szs).map Prod.fst).Nodup := by
    rw [hmapfst]
    exact hnd
  have h := alookup_rangesFrom (ts.zip szs) 0 j hjl hndz
  rw [hmapsnd] at h
  have hkey : ((ts.zip szs).get ⟨j, hjl⟩).1 = ts[j] := by
    have h2 : ts[j]? = some (((ts.zip szs)[j]).1) := by
      conv_lhs => rw [← hmapfst]
      rw [List.getElem?_map, List.getElem?_eq_getElem hjl]
      rfl
    rw [List.getElem?_eq_getElem hj] at h2
    injection h2 with h4
    rw [List.get_eq_getElem]
    exact h4.symm
  rw [hkey] at h
  simpa using h

/-- C3: for a Typed Element Store, type names are processed in sorted order
and get contiguous iloc ranges: the recorded ranges list the types in sorted
order; the `j`-th sorted type owns exactly `[offset j, offset (j+1))`; the
offsets start at 0, step by each type's row count and end at the total element
count (so the ranges are pairwise disjoint and cover `[0, total)` exactly);
the id index is the concatenation of the per-type row labels in that order
(preserving per-type row order); and `type_of_iloc` returns the owning type's
name for every iloc in a type's range. -/
theorem C3_sorted_contiguous_ranges {τ : Type v} {α : Type u} [LinearOrder τ]
    [DecidableEq α] (shared : List (τ × DataFrame α)) (ed : ElementData τ α)
    (hkeys : (shared.map Prod.fst).Nodup) (hT : shared.length < 2 ^ 64)
    (hc : ElementData.construct shared = Except.ok ed) :
    (ed._type_element_ilocs.map Prod.fst = sortedKeys shared) ∧
    (∀ j, (hj : j < (sortedKeys shared).length) →
      ed.type_range ((sortedKeys shared)[j]) =
        some (offsetAt shared j, offsetAt shared (j + 1))) ∧
    (offsetAt shared 0 = 0 ∧
      (∀ j, j < (sortedKeys shared).length →
        offsetAt shared (j + 1) = offsetAt shared j + (typeSizes shared).getD j 0) ∧
      offsetAt shared (sortedKeys shared).length = ed.length) ∧
    (ed._id_index._index = allLabels shared) ∧
    (∀ j, (hj : j < (sortedKeys shared).length) → ∀ i : Nat,
      offsetAt shared j ≤ i → i < offsetAt shared (j + 1) →
      ed.type_of_iloc [(i : Int)] = some [(sortedKeys shared)[j]]) := by
  have hndk : (sortedKeys shared).Nodup := sortedKeys_nodup shared hkeys
  have lenszs : (typeSizes shared).length = (sortedKeys shared).length :=
    List.length_map _ _
  rw [ElementData.construct_eval shared hkeys hT] at hc
  by_cases hnd : (allLabels shared).Nodup
  case neg =>
    rw [if_neg hnd] at hc
    cases hc
  rw [if_pos hnd] at hc
  injection hc with hED
  subst hED
  have hstep : ∀ j, j < (sortedKeys shared).length →
      offsetAt shared (j + 1) = offsetAt shared j + (typeSizes shared).getD j 0 := by
    intro j hj
    unfold offsetAt
    exact sum_take_succ _ j (by omega)
  refine ⟨?_, ?_, ⟨rfl, hstep, ?_⟩, rfl, ?_⟩
  · rw [rangesFrom_keys]
    exact List.map_fst_zip _ _ (by omega)
  · intro j hj
    exact alookup_rangesFrom_zip (sortedKeys shared) (typeSizes shared) lenszs hndk j hj
  · unfold offsetAt
    rw [List.take_of_length_le (by omega)]
    show (typeSizes shared).sum = (allLabels shared).length
    simp only [allLabels, typeSizes, List.length_flatten, List.map_map]
    congr 1
  · intro j hj i h1 h2
    have hjs : j < (typeSizes shared).length := by omega
    have hcodeslen : ((List.range (sortedKeys shared).length).map
        (fun j : Nat => (j : Int))).length = (typeSizes shared).length := by
      simp [lenszs]
    have hisum : i < (typeSizes shared).sum := by
      have := take_sum_le (typeSizes shared) (j + 1)
      unfold offsetAt at h2
      omega
    have ho : i - offsetAt shared j < (typeSizes shared).getD j 0 := by
      have := hstep j hj
      omega
    have hpos : ((typeSizes shared).take j).sum + (i - offsetAt shared j) = i := by
      unfold offsetAt at h1 ⊢
      omega
    have hcol : (npRepeat ((List.range (sortedKeys shared).length).map
        (fun j : Nat => (j : Int))) (typeSizes shared))[i]? =
        ((List.range (sortedKeys shared).length).map (fun j : Nat => (j : Int)))[j]? := by
      rw [← hpos]
      exact npRepeat_getElem _ _ j (i - offsetAt shared j) hjs hcodeslen ho
    have hcodej : ((List.range (sortedKeys shared).length).map
        (fun j : Nat => (j : Int)))[j]? = some ((j : Nat) : Int) := by
      rw [List.getElem?_map, List.getElem?_range hj]
      rfl
    have hpg : pandasGet (npRepeat ((List.range (sortedKeys shared).length).map
        (fun j : Nat => (j : Int))) (typeSizes shared)) ((i : Nat) : Int) =
        some ((j : Nat) : Int) := by
      unfold pandasGet
      rw [if_pos (Int.natCast_nonneg _), Int.toNat_ofNat, hcol, hcodej]
    show ElementData.type_of_iloc _ _ = _
    unfold ElementData.type_of_iloc
    rw [mapM_singleton _ _ _ hpg]
    show (ExternalIdIndex.ofList (sortedKeys shared)).from_iloc [((j : Nat) : Int)] =
      some [(sortedKeys shared)[j]]
    rw [from_iloc_nat, index_ofList, List.getElem?_eq_getElem hj]
    rfl

/-- C6: constructing an Identifier Index fails (with a duplicate-identifiers
error) iff some identifier appears more than once; the error lists exactly the
distinct duplicated values; and a Typed Element Store builds its index over
the concatenation of all per-type row labels, so it fails with the same
duplicate-identifiers error exactly when the concatenated labels repeat —
within one type or across types. -/
theorem C6_duplicate_identifiers {τ : Type v} {α : Type u} [LinearOrder τ]
    [DecidableEq α] (ids : List α) (shared : List (τ × DataFrame α))
    (hkeys : (shared.map Prod.fst).Nodup) (hT : shared.length < 2 ^ 64) :
    ((∃ es, ExternalIdIndex.construct ids = Except.error es) ↔ ¬ ids.Nodup) ∧
    (∀ es, ExternalIdIndex.construct ids = Except.error es →
      es.Nodup ∧ ∀ x, x ∈ es ↔ 2 ≤ ids.count x) ∧
    (∀ es, ElementData.construct shared = Except.error (ElemErr.dupIds es) ↔
      ExternalIdIndex.construct (allLabels shared) = Except.error es) := by
  refine ⟨construct_error_iff ids, ?_, ?_⟩
  · intro es h
    obtain ⟨hnd, he⟩ := construct_error h
    subst he
    refine ⟨uniqueFirst_nodup _, ?_⟩
    intro x
    rw [mem_uniqueFirst, mem_duplicatedFlagged]
    simp
  · intro es
    rw [ElementData.construct_eval shared hkeys hT]
    rw [construct_eq (allLabels shared)]
    by_cases hnd : (allLabels shared).Nodup
    · rw [if_pos hnd, if_pos hnd]
      constructor
      · intro h
        cases h
      · intro h
        cases h
    · rw [if_neg hnd, if_neg hnd]
      constructor
      · intro h
        injection h with h1
        injection h1 with h2
        rw [h2]
      · intro h
        injection h with h1
        rw [h1]

/-- C6 witness: the list `[1, 1, 2]` and the two-type store repeating `11`. -/
theorem C6_witness :
    ((sharedDupEx.map Prod.fst).Nodup ∧ sharedDupEx.length < 2 ^ 64) ∧
    (((∃ es, ExternalIdIndex.construct [(1 : Nat), 1, 2] = Except.error es) ↔
        ¬ ([(1 : Nat), 1, 2]).Nodup) ∧
      (∀ es, ExternalIdIndex.construct [(1 : Nat), 1, 2] = Except.error es →
        es.Nodup ∧ ∀ x, x ∈ es ↔ 2 ≤ ([(1 : Nat), 1, 2]).count x) ∧
      (∀ es, ElementData.construct sharedDupEx =
          Except.error (ElemErr.dupIds es) ↔
        ExternalIdIndex.construct (allLabels sharedDupEx) = Except.error es)) :=
  ⟨⟨by decide, by decide⟩,
    C6_duplicate_identifiers [1, 1, 2] sharedDupEx (by decide) (by decide)⟩

/-- C3 witness: the two-type store with 3 and 5 rows (ranges `[0,3)`, `[3,8)`). -/
theorem C3_witness :
    ElementData.construct sharedEx3 = Except.ok edEx3 ∧
    ((sharedEx3.map Prod.fst).Nodup ∧ sharedEx3.length < 2 ^ 64) ∧
    ((edEx3._type_element_ilocs.map Prod.fst = sortedKeys sharedEx3) ∧
      (∀ j, (hj : j < (sortedKeys sharedEx3).length) →
        edEx3.type_range ((sortedKeys sharedEx3)[j]) =
          some (offsetAt sharedEx3 j, offsetAt sharedEx3 (j + 1))) ∧
      (offsetAt sharedEx3 0 = 0 ∧
        (∀ j, j < (sortedKeys sharedEx3).length →
          offsetAt sharedEx3 (j + 1) =
            offsetAt sharedEx3 j + (typeSizes sharedEx3).getD j 0) ∧
        offsetAt sharedEx3 (sortedKeys sharedEx3).length = edEx3.length) ∧
      (edEx3._id_index._index = allLabels sharedEx3) ∧
      (∀ j, (hj : j < (sortedKeys sharedEx3).length) → ∀ i : Nat,
        offsetAt sharedEx3 j ≤ i → i < offsetAt sharedEx3 (j + 1) →
        edEx3.type_of_iloc [(i : Int)] = some [(sortedKeys sharedEx3)[j]])) :=
  ⟨by decide, ⟨by decide, by decide⟩,
    C3_sorted_contiguous_ranges sharedEx3 edEx3 (by decide) (by decide) (by decide)⟩

theorem alookup_mem {τ : Type v} {β : Type u} [DecidableEq τ] :
    ∀ (l : List (τ × β)) (t : τ) (b : β), alookup l t = some b → (t, b) ∈ l := by
  intro l
  induction l with
  | nil =>
    intro t b h
    cases h
  | cons p ps ih =>
    intro t b h
    unfold alookup at h
    by_cases hp : p.1 = t
    · rw [if_pos hp] at h
      injection h with h1
      apply List.mem_cons.mpr
      left
      cases p
      simp only at hp h1
      rw [hp, h1]
    · rw [if_neg hp] at h
      exact List.mem_cons_of_mem _ (ih t b h)

theorem checkFeatures_ok {τ : Type v} {α : Type u} [DecidableEq τ]
    (base : ElementData τ α) :
    ∀ (fs : List (τ × List (List Int))), checkFeatures base fs = Except.ok () →
      ∀ p ∈ fs, ∃ r, base.type_range p.1 = some r ∧ p.2.length = r.2 - r.1 := by
  intro fs
  induction fs with
  | nil =>
    intro _ p hp
    cases hp
  | cons q rest ih =>
    intro h p hp
    unfold checkFeatures at h
    split at h
    · cases h
    · next r hr =>
      split at h
      · next hl =>
        rcases List.mem_cons.mp hp with rfl | hp2
        · exact ⟨r, hr, hl⟩
        · exact ih h p hp2
      · cases h

theorem nodeData_construct_ok {τ : Type v} {α : Type u} [LinearOrder τ]
    [DecidableEq α] {shared : List (τ × DataFrame α)}
    {features : List (τ × List (List Int))} {nd : NodeData τ α}
    (hc : NodeData.construct shared features = Except.ok nd) :
    ElementData.construct shared = Except.ok nd.toElementData ∧
    checkFeatures nd.toElementData features = Except.ok () ∧
    nd._features = features := by
  unfold NodeData.construct at hc
  split at hc
  · cases hc
  · next base h1 =>
    split at hc
    · cases hc
    · next u h2 =>
      cases u
      injection hc with h3
      subst h3
      exact ⟨h1, h2, rfl⟩

theorem features_eval {τ : Type v} {α : Type u} [DecidableEq τ] (nd : NodeData τ α)
    (t : τ) (r : Nat × Nat) (payload : List (List Int))
    (hr : nd.type_range t = some r) (hf : alookup nd._features t = some payload)
    (id_ilocs : List Int) :
    nd.features t id_ilocs =
      (if (id_ilocs.map (fun i => i - (r.1 : Int))).any (fun i => decide (i < 0)) then
        Except.error FeatErr.unknownIDs
      else if (id_ilocs.map (fun i => i - (r.1 : Int))).any
          (fun i => decide ((payload.length : Int) ≤ i)) then
        Except.error FeatErr.unknownIDs
      else Except.ok ((id_ilocs.map (fun i => i - (r.1 : Int))).map
        (fun i => (payload[i.toNat]?).getD []))) := by
  unfold NodeData.features
  rw [hr]
  show (if (id_ilocs.map (fun i => i - (r.1 : Int))).any (fun i => decide (i < 0)) then
      Except.error FeatErr.unknownIDs
    else
      match alookup nd._features t with
      | none => Except.error (FeatErr.keyError t)
      | some payload =>
        if (id_ilocs.map (fun i => i - (r.1 : Int))).any
            (fun i => decide ((payload.length : Int) ≤ i)) then
          Except.error FeatErr.unknownIDs
        else
          Except.ok ((id_ilocs.map (fun i => i - (r.1 : Int))).map
            (fun i => (payload[i.toNat]?).getD []))) = _
  rw [hf]

/-- C8: for a constructed Node Store, `features` converts each global iloc to
a type-relative offset by subtracting the type's range start, and fails with
the "unknown IDs" error exactly when some offset is negative (the iloc belongs
to an earlier type or is an unmapped sentinel) or is at least the type's row
count (the iloc belongs to a later type); when every offset is in range it
returns the selected rows. -/
theorem C8_features_boundary {τ : Type v} {α : Type u} [LinearOrder τ]
    [DecidableEq α] (shared : List (τ × DataFrame α))
    (features : List (τ × List (List Int))) (nd : NodeData τ α)
    (hc : NodeData.construct shared features = Except.ok nd)
    (t : τ) (payload : List (List Int)) (hf : alookup features t = some payload) :
    ∃ s e : Nat, nd.type_range t = some (s, e) ∧ payload.length = e - s ∧
      ∀ id_ilocs : List Int,
        (nd.features t id_ilocs = Except.error FeatErr.unknownIDs ↔
          ∃ i ∈ id_ilocs, i - (s : Int) < 0 ∨
            (payload.length : Int) ≤ i - (s : Int)) ∧
        ((∀ i ∈ id_ilocs, (s : Int) ≤ i ∧
            i - (s : Int) < (payload.length : Int)) →
          nd.features t id_ilocs = Except.ok (id_ilocs.map
            (fun i => (payload[(i - (s : Int)).toNat]?).getD []))) := by
  obtain ⟨hbase, hcheck, hfe⟩ := nodeData_construct_ok hc
  have hmem : (t, payload) ∈ features := alookup_mem features t payload hf
  obtain ⟨r, hr, hlenp⟩ :=
    checkFeatures_ok nd.toElementData features hcheck (t, payload) hmem
  have hfnd : alookup nd._features t = some payload := by
    rw [hfe]
    exact hf
  have heval := features_eval nd t r payload hr hfnd
  have hA : ∀ id_ilocs : List Int,
      ((id_ilocs.map (fun i => i - (r.1 : Int))).any
        (fun i => decide (i < 0)) = true) ↔
      ∃ i ∈ id_ilocs, i - (r.1 : Int) < 0 := by
    intro id_ilocs
    rw [List.any_map]
    simp [List.any_eq_true]
  have hB : ∀ id_ilocs : List Int,
      ((id_ilocs.map (fun i => i - (r.1 : Int))).any
        (fun i => decide ((payload.length : Int) ≤ i)) = true) ↔
      ∃ i ∈ id_ilocs, (payload.length : Int) ≤ i - (r.1 : Int) := by
    intro id_ilocs
    rw [List.any_map]
    simp [List.any_eq_true]
  refine ⟨r.1, r.2, hr, hlenp, ?_⟩
  intro id_ilocs
  constructor
  · rw [heval id_ilocs]
    have hsplit : (∃ i ∈ id_ilocs, i - (r.1 : Int) < 0 ∨
        (payload.length : Int) ≤ i - (r.1 : Int)) ↔
        ((∃ i ∈ id_ilocs, i - (r.1 : Int) < 0) ∨
          (∃ i ∈ id_ilocs, (payload.length : Int) ≤ i - (r.1 : Int))) := by
      constructor
      · rintro ⟨i, hi, hior⟩
        rcases hior with h | h
        · exact Or.inl ⟨i, hi, h⟩
        · exact Or.inr ⟨i, hi, h⟩
      · rintro (⟨i, hi, h⟩ | ⟨i, hi, h⟩)
        · exact ⟨i, hi, Or.inl h⟩
        · exact ⟨i, hi, Or.inr h⟩
    rw [hsplit, ← hA, ← hB]
    by_cases h1 : (id_ilocs.map (fun i => i - (r.1 : Int))).any
        (fun i => decide (i < 0)) = true
    · rw [if_pos h1]
      simp [h1]
    · rw [if_neg h1]
      by_cases h2 : (id_ilocs.map (fun i => i - (r.1 : Int))).any
          (fun i => decide ((payload.length : Int) ≤ i)) = true
      · rw [if_pos h2]
        simp [h1, h2]
      · rw [if_neg h2]
        simp [h1, h2]
  · intro hall
    rw [heval id_ilocs]
    have h1 : ¬ ((id_ilocs.map (fun i => i - (r.1 : Int))).any
        (fun i => decide (i < 0)) = true) := by
      rw [hA]
      rintro ⟨i, hi, hneg⟩
      have := (hall i hi).1
      omega
    have h2 : ¬ ((id_ilocs.map (fun i => i - (r.1 : Int))).any
        (fun i => decide ((payload.length : Int) ≤ i)) = true) := by
      rw [hB]
      rintro ⟨i, hi, hge⟩
      have := (hall i hi).2
      omega
    rw [if_neg h1, if_neg h2, List.map_map]
    rfl

/-- C8 witness: with type 0 at `[0, 3)` and type 1 at `[3, 8)`, requesting
`features 0 [4]` fails with the unknown-IDs error (iloc 4 belongs to type 1). -/
theorem C8_witness :
    NodeData.construct sharedEx8 featuresEx8 = Except.ok ndEx8 ∧
    alookup featuresEx8 0 = some [[1], [2], [3]] ∧
    ndEx8.features 0 [4] = Except.error FeatErr.unknownIDs ∧
    (∃ s e : Nat, ndEx8.type_range 0 = some (s, e) ∧
      ([[1], [2], [3]] : List (List Int)).length = e - s ∧
      ∀ id_ilocs : List Int,
        (ndEx8.features 0 id_ilocs = Except.error FeatErr.unknownIDs ↔
          ∃ i ∈ id_ilocs, i - (s : Int) < 0 ∨
            ((([[1], [2], [3]] : List (List Int)).length : Int) ≤ i - (s : Int))) ∧
        ((∀ i ∈ id_ilocs, (s : Int) ≤ i ∧
            i - (s : Int) < (([[1], [2], [3]] : List (List Int)).length : Int)) →
          ndEx8.features 0 id_ilocs = Except.ok (id_ilocs.map
            (fun i =>
              (([[1], [2], [3]] : List (List Int))[(i - (s : Int)).toNat]?).getD [])))) :=
  ⟨by decide, by decide, by decide,
    C8_features_boundary sharedEx8 featuresEx8 ndEx8 (by decide) 0
      [[1], [2], [3]] (by decide)⟩

theorem inPairs_cons (r : Int × Int × Int) (rows : List (Int × Int × Int)) (k : Nat) :
    inPairs (r :: rows) k = inPairs [r] k ++ inPairs rows k := by
  unfold inPairs
  by_cases h : r.2.1 = (k : Int) <;> simp [List.filterMap_cons, h]

theorem outPairs_cons (r : Int × Int × Int) (rows : List (Int × Int × Int)) (k : Nat) :
    outPairs (r :: rows) k = outPairs [r] k ++ outPairs rows k := by
  unfold outPairs
  by_cases h : r.1 = (k : Int) <;> simp [List.filterMap_cons, h]

theorem undPairs_cons (r : Int × Int × Int) (rows : List (Int × Int × Int)) (k : Nat) :
    undPairs (r :: rows) k = undPairs [r] k ++ undPairs rows k := by
  unfold undPairs
  simp

theorem appendAt_length (v : Int) : ∀ (ls : List (List Int)) (k : Nat),
    (appendAt v ls k).length = ls.length
  | [], _ => rfl
  | _ :: _, 0 => rfl
  | l :: ls, k + 1 => by simp [appendAt, appendAt_length v ls k]

theorem appendAt_getElem_self (v : Int) : ∀ (ls : List (List Int)) (k : Nat),
    k < ls.length → (appendAt v ls k)[k]? = (ls[k]?).map (fun l => l ++ [v])
  | [], k, hk => by simp at hk
  | l :: ls, 0, _ => by simp [appendAt]
  | l :: ls, k + 1, hk => by
    simp only [appendAt, List.getElem?_cons_succ]
    exact appendAt_getElem_self v ls k (by simpa using hk)

theorem appendAt_getElem_ne (v : Int) : ∀ (ls : List (List Int)) (k j : Nat),
    j ≠ k → (appendAt v ls k)[j]? = ls[j]?
  | [], _, _, _ => by simp [appendAt]
  | l :: ls, 0, 0, hj => absurd rfl hj
  | l :: ls, 0, j + 1, _ => by simp [appendAt]
  | l :: ls, k + 1, 0, _ => by simp [appendAt]
  | l :: ls, k + 1, j + 1, hj => by
    simp only [appendAt, List.getElem?_cons_succ]
    exact appendAt_getElem_ne v ls k j (by omega)

theorem optmap_append_comp (o : Option (List Int)) (A B : List Int) :
    (o.map (fun l => l ++ A)).map (fun l => l ++ B) =
      o.map (fun l => l ++ (A ++ B)) := by
  cases o <;> simp

theorem optmap_append_nil (o : Option (List Int)) :
    o.map (fun l => l ++ ([] : List Int)) = o := by
  cases o <;> simp

theorem adjStep_getElem (n : Nat) (st st1 : AdjState) (r : Int × Int × Int)
    (h : adjStep n st r = some st1)
    (h1 : st.in_d.length = n) (h2 : st.out_d.length = n) (h3 : st.und.length = n)
    (h4 : st.in_w.length = n) (h5 : st.out_w.length = n) (h6 : st.und_w.length = n) :
    (st1.in_d.length = n ∧ st1.out_d.length = n ∧ st1.und.length = n ∧
     st1.in_w.length = n ∧ st1.out_w.length = n ∧ st1.und_w.length = n) ∧
    ∀ k : Nat, k < n →
      st1.in_d[k]? = (st.in_d[k]?).map (fun l => l ++ (inPairs [r] k).map Prod.fst) ∧
      st1.in_w[k]? = (st.in_w[k]?).map (fun l => l ++ (inPairs [r] k).map Prod.snd) ∧
      st1.out_d[k]? = (st.out_d[k]?).map (fun l => l ++ (outPairs [r] k).map Prod.fst) ∧
      st1.out_w[k]? = (st.out_w[k]?).map (fun l => l ++ (outPairs [r] k).map Prod.snd) ∧
      st1.und[k]? = (st.und[k]?).map (fun l => l ++ (undPairs [r] k).map Prod.fst) ∧
      st1.und_w[k]? = (st.und_w[k]?).map (fun l => l ++ (undPairs [r] k).map Prod.snd) := by
  unfold adjStep at h
  dsimp only at h
  split at h
  case isFalse => cases h
  case isTrue hrange =>
    obtain ⟨hs0, hsn, ht0, htn⟩ := hrange
    have hcs : ((r.1.toNat : Nat) : Int) = r.1 := Int.toNat_of_nonneg hs0
    have hct : ((r.2.1.toNat : Nat) : Int) = r.2.1 := Int.toNat_of_nonneg ht0
    split at h
    case isTrue hne =>
      have hne2 : r.2.1 ≠ r.1 := fun hh => hne hh.symm
      injection h with hst
      subst hst
      dsimp only
      refine ⟨⟨?_, ?_, ?_, ?_, ?_, ?_⟩, ?_⟩
      · rw [appendAt_length, h1]
      · rw [appendAt_length, h2]
      · rw [appendAt_length, appendAt_length, h3]
      · rw [appendAt_length, h4]
      · rw [appendAt_length, h5]
      · rw [appendAt_length, appendAt_length, h6]
      intro k hk
      refine ⟨?_, ?_, ?_, ?_, ?_, ?_⟩
      · by_cases hkt : k = r.2.1.toNat
        · rw [hkt, appendAt_getElem_self _ _ _ (by omega)]
          simp [inPairs, hct]
        · rw [appendAt_getElem_ne _ _ _ _ hkt]
          have hkint : ¬ (r.2.1 = (k : Int)) := by omega
          simp [inPairs, hkint, optmap_append_nil]
      · by_cases hkt : k = r.2.1.toNat
        · rw [hkt, appendAt_getElem_self _ _ _ (by omega)]
          simp [inPairs, hct]
        · rw [appendAt_getElem_ne _ _ _ _ hkt]
          have hkint : ¬ (r.2.1 = (k : Int)) := by omega
          simp [inPairs, hkint, optmap_append_nil]
      · by_cases hks : k = r.1.toNat
        · rw [hks, appendAt_getElem_self _ _ _ (by omega)]
          simp [outPairs, hcs]
        · rw [appendAt_getElem_ne _ _ _ _ hks]
          have hkint : ¬ (r.1 = (k : Int)) := by omega
          simp [outPairs, hkint, optmap_append_nil]
      · by_cases hks : k = r.1.toNat
        · rw [hks, appendAt_getElem_self _ _ _ (by omega)]
          simp [outPairs, hcs]
        · rw [appendAt_getElem_ne _ _ _ _ hks]
          have hkint : ¬ (r.1 = (k : Int)) := by omega
          simp [outPairs, hkint, optmap_append_nil]
      · by_cases hks : k = r.1.toNat
        · rw [hks, appendAt_getElem_self _ _ _ (by rw [appendAt_length]; omega)]
          rw [appendAt_getElem_ne _ _ _ _ (by omega)]
          simp [undPairs, hcs, hne, hne2]
        · by_cases hkt : k = r.2.1.toNat
          · rw [hkt, appendAt_getElem_ne _ _ _ _ (by omega)]
            rw [appendAt_getElem_self _ _ _ (by omega)]
            simp [undPairs, hct, hne, hne2]
          · rw [appendAt_getElem_ne _ _ _ _ hks, appendAt_getElem_ne _ _ _ _ hkt]
            have hkint : ¬ (r.2.1 = (k : Int)) := by omega
            have hkint2 : ¬ (r.1 = (k : Int)) := by omega
            simp [undPairs, hkint, hkint2, optmap_append_nil]
      · by_cases hks : k = r.1.toNat
        · rw [hks, appendAt_getElem_self _ _ _ (by rw [appendAt_length]; omega)]
          rw [appendAt_getElem_ne _ _ _ _ (by omega)]
          simp [undPairs, hcs, hne, hne2]
        · by_cases hkt : k = r.2.1.toNat
          · rw [hkt, appendAt_getElem_ne _ _ _ _ (by omega)]
            rw [appendAt_getElem_self _ _ _ (by omega)]
            simp [undPairs, hct, hne, hne2]
          · rw [appendAt_getElem_ne _ _ _ _ hks, appendAt_getElem_ne _ _ _ _ hkt]
            have hkint : ¬ (r.2.1 = (k : Int)) := by omega
            have hkint2 : ¬ (r.1 = (k : Int)) := by omega
            simp [undPairs, hkint, hkint2, optmap_append_nil]
    case isFalse hne =>
      injection h with hst
      subst hst
      have heq : r.1 = r.2.1 := by omega
      dsimp only
      refine ⟨⟨?_, ?_, ?_, ?_, ?_, ?_⟩, ?_⟩
      · rw [appendAt_length, h1]
      · rw [appendAt_length, h2]
      · rw [appendAt_length, h3]
      · rw [appendAt_length, h4]
      · rw [appendAt_length, h5]
      · rw [appendAt_length, h6]
      intro k hk
      refine ⟨?_, ?_, ?_, ?_, ?_, ?_⟩
      · by_cases hkt : k = r.2.1.toNat
        · rw [hkt, appendAt_getElem_self _ _ _ (by omega)]
          simp [inPairs, hct]
        · rw [appendAt_getElem_ne _ _ _ _ hkt]
          have hkint : ¬ (r.2.1 = (k : Int)) := by omega
          simp [inPairs, hkint, optmap_append_nil]
      · by_cases hkt : k = r.2.1.toNat
        · rw [hkt, appendAt_getElem_self _ _ _ (by omega)]
          simp [inPairs, hct]
        · rw [appendAt_getElem_ne _ _ _ _ hkt]
          have hkint : ¬ (r.2.1 = (k : Int)) := by omega
          simp [inPairs, hkint, optmap_append_nil]
      · by_cases hks : k = r.1.toNat
        · rw [hks, appendAt_getElem_self _ _ _ (by omega)]
          simp [outPairs, hcs]
        · rw [appendAt_getElem_ne _ _ _ _ hks]
          have hkint : ¬ (r.1 = (k : Int)) := by omega
          simp [outPairs, hkint, optmap_append_nil]
      · by_cases hks : k = r.1.toNat
        · rw [hks, appendAt_getElem_self _ _ _ (by omega)]
          simp [outPairs, hcs]
        · rw [appendAt_getElem_ne _ _ _ _ hks]
          have hkint : ¬ (r.1 = (k : Int)) := by omega
          simp [outPairs, hkint, optmap_append_nil]
      · by_cases hkt : k = r.2.1.toNat
        · rw [hkt, appendAt_getElem_self _ _ _ (by omega)]
          simp [undPairs, hct, heq]
        · rw [appendAt_getElem_ne _ _ _ _ hkt]
          have hkint : ¬ (r.2.1 = (k : Int)) := by omega
          have hkint2 : ¬ (r.1 = (k : Int)) := by omega
          simp [undPairs, hkint, hkint2, optmap_append_nil]
      · by_cases hkt : k = r.2.1.toNat
        · rw [hkt, appendAt_getElem_self _ _ _ (by omega)]
          simp [undPairs, hct, heq]
        · rw [appendAt_getElem_ne _ _ _ _ hkt]
          have hkint : ¬ (r.2.1 = (k : Int)) := by omega
          have hkint2 : ¬ (r.1 = (k : Int)) := by omega
          simp [undPairs, hkint, hkint2, optmap_append_nil]

theorem buildAdj_go (n : Nat) : ∀ (rows : List (Int × Int × Int)) (st st' : AdjState),
    List.foldlM (adjStep n) st rows = some st' →
    st.in_d.length = n → st.out_d.length = n → st.und.length = n →
    st.in_w.length = n → st.out_w.length = n → st.und_w.length = n →
    (st'.in_d.length = n ∧ st'.out_d.length = n ∧ st'.und.length = n ∧
     st'.in_w.length = n ∧ st'.out_w.length = n ∧ st'.und_w.length = n) ∧
    ∀ k : Nat, k < n →
      st'.in_d[k]? = (st.in_d[k]?).map (fun l => l ++ (inPairs rows k).map Prod.fst) ∧
      st'.in_w[k]? = (st.in_w[k]?).map (fun l => l ++ (inPairs rows k).map Prod.snd) ∧
      st'.out_d[k]? = (st.out_d[k]?).map (fun l => l ++ (outPairs rows k).map Prod.fst) ∧
      st'.out_w[k]? = (st.out_w[k]?).map (fun l => l ++ (outPairs rows k).map Prod.snd) ∧
      st'.und[k]? = (st.und[k]?).map (fun l => l ++ (undPairs rows k).map Prod.fst) ∧
      st'.und_w[k]? = (st.und_w[k]?).map (fun l => l ++ (undPairs rows k).map Prod.snd) := by
  intro rows
  induction rows with
  | nil =>
    intro st st' h hl1 hl2 hl3 hl4 hl5 hl6
    rw [List.foldlM_nil] at h
    injection h with hst
    subst hst
    refine ⟨⟨hl1, hl2, hl3, hl4, hl5, hl6⟩, ?_⟩
    intro k hk
    refine ⟨?_, ?_, ?_, ?_, ?_, ?_⟩ <;>
      simp [inPairs, outPairs, undPairs, optmap_append_nil]
  | cons r rest ih =>
    intro st st' h hl1 hl2 hl3 hl4 hl5 hl6
    rw [List.foldlM_cons] at h
    cases hstep : adjStep n st r with
    | none =>
      rw [hstep] at h
      cases h
    | some st1 =>
      rw [hstep] at h
      simp only [Option.bind_eq_bind, Option.some_bind] at h
      obtain ⟨⟨m1, m2, m3, m4, m5, m6⟩, hstep_k⟩ :=
        adjStep_getElem n st st1 r hstep hl1 hl2 hl3 hl4 hl5 hl6
      obtain ⟨hlen2, hk2⟩ := ih st1 st' h m1 m2 m3 m4 m5 m6
      refine ⟨hlen2, ?_⟩
      intro k hk
      obtain ⟨a1, a2, a3, a4, a5, a6⟩ := hstep_k k hk
      obtain ⟨b1, b2, b3, b4, b5, b6⟩ := hk2 k hk
      refine ⟨?_, ?_, ?_, ?_, ?_, ?_⟩
      · rw [b1, a1, optmap_append_comp, ← List.map_append, ← inPairs_cons]
      · rw [b2, a2, optmap_append_comp, ← List.map_append, ← inPairs_cons]
      · rw [b3, a3, optmap_append_comp, ← List.map_append, ← outPairs_cons]
      · rw [b4, a4, optmap_append_comp, ← List.map_append, ← outPairs_cons]
      · rw [b5, a5, optmap_append_comp, ← List.map_append, ← undPairs_cons]
      · rw [b6, a6, optmap_append_comp, ← List.map_append, ← undPairs_cons]

theorem buildAdj_spec (n : Nat) (rows : List (Int × Int × Int)) (st : AdjState)
    (h : buildAdj n rows = some st) :
    (st.in_d.length = n ∧ st.out_d.length = n ∧ st.und.length = n ∧
     st.in_w.length = n ∧ st.out_w.length = n ∧ st.und_w.length = n) ∧
    ∀ k : Nat, k < n →
      st.in_d[k]? = some ((inPairs rows k).map Prod.fst) ∧
      st.in_w[k]? = some ((inPairs rows k).map Prod.snd) ∧
      st.out_d[k]? = some ((outPairs rows k).map Prod.fst) ∧
      st.out_w[k]? = some ((outPairs rows k).map Prod.snd) ∧
      st.und[k]? = some ((undPairs rows k).map Prod.fst) ∧
      st.und_w[k]? = some ((undPairs rows k).map Prod.snd) := by
  unfold buildAdj at h
  have hrep : ∀ k : Nat, k < n →
      (List.replicate n ([] : List Int))[k]? = some [] := by
    intro k hk
    rw [List.getElem?_replicate]
    rw [if_pos hk]
  obtain ⟨hlen, hks⟩ := buildAdj_go n rows (adjInit n) st h
    (by simp [adjInit]) (by simp [adjInit]) (by simp [adjInit])
    (by simp [adjInit]) (by simp [adjInit]) (by simp [adjInit])
  refine ⟨hlen, ?_⟩
  intro k hk
  obtain ⟨c1, c2, c3, c4, c5, c6⟩ := hks k hk
  unfold adjInit at c1 c2 c3 c4 c5 c6
  dsimp only at c1 c2 c3 c4 c5 c6
  rw [hrep k hk] at c1 c2 c3 c4 c5 c6
  simp only [Option.map_some', List.nil_append] at c1 c2 c3 c4 c5 c6
  exact ⟨c1, c2, c3, c4, c5, c6⟩

theorem mapM_adj_lookup {τ : Type v} [DecidableEq τ] (g : τ → Option AdjState) :
    ∀ (ts : List τ) (typed : List (τ × AdjState)),
      ts.mapM (fun t => (g t).map (fun st => (t, st))) = some typed →
      ts.Nodup →
      ∀ t ∈ ts, ∃ st, alookup typed t = some st ∧ g t = some st := by
  intro ts
  induction ts with
  | nil =>
    intro typed _ _ t ht
    cases ht
  | cons x xs ih =>
    intro typed h hnd t ht
    rw [List.mapM_cons] at h
    cases hx : g x with
    | none =>
      rw [hx] at h
      simp at h
    | some stx =>
      rw [hx] at h
      cases hxs : xs.mapM (fun t => (g t).map (fun st => (t, st))) with
      | none =>
        rw [hxs] at h
        simp at h
      | some rest =>
        rw [hxs] at h
        simp only [Option.map_some', Option.bind_eq_bind, Option.some_bind,
          Option.pure_def] at h
        injection h with h2
        subst h2
        rcases List.mem_cons.mp ht with rfl | ht2
        · refine ⟨stx, ?_, hx⟩
          unfold alookup
          rw [if_pos rfl]
        · obtain ⟨st, hl, hg⟩ := ih rest hxs (List.nodup_cons.mp hnd).2 t ht2
          refine ⟨st, ?_, hg⟩
          unfold alookup
          have hxt : ¬ ((x, stx).1 = t) := by
            intro he
            apply (List.nodup_cons.mp hnd).1
            have he2 : x = t := he
            rw [he2]
            exact ht2
          rw [if_neg hxt]
          exact hl

theorem edgeData_construct_ok {τ : Type v} {α : Type u} [LinearOrder τ]
    [DecidableEq α] {shared : List (τ × DataFrame α)} {num_nodes : Nat}
    {ed : EdgeData τ α} (hc : EdgeData.construct shared num_nodes = Except.ok ed) :
    ElementData.construct shared = Except.ok ed.toElementData ∧
    ed.all_type_names = sortedKeys shared ∧
    (sortedKeys shared).mapM (fun t =>
      (buildAdj num_nodes (dfRows (frameOf shared t))).map (fun st => (t, st))) =
      some ed._adj_by_type := by
  unfold EdgeData.construct at hc
  split at hc
  · cases hc
  · next base h1 =>
    split at hc
    · cases hc
    · next typed h2 =>
      injection hc with h3
      subst h3
      exact ⟨h1, rfl, h2⟩

/-- C2: in a constructed Edge Store, for every edge type `t` of the input the
per-type adjacency tables satisfy: every one of the six tables has an entry
for every node iloc in `0 .. num_nodes` (possibly empty); at each node `k`,
the incoming table holds exactly the sources of the edges targeting `k` (with
the weights at the same positions in the parallel weight table), the outgoing
table exactly the targets of the edges leaving `k` (weights parallel), and
the undirected table gets the source appended at the target and — only when
`src ≠ tgt` — the target appended once more at the source, so a self-loop
appears exactly once in the undirected view. -/
theorem C2_adjacency_invariant {τ : Type v} {α : Type u} [LinearOrder τ]
    [DecidableEq α] (shared : List (τ × DataFrame α)) (num_nodes : Nat)
    (ed : EdgeData τ α) (hkeys : (shared.map Prod.fst).Nodup)
    (hc : EdgeData.construct shared num_nodes = Except.ok ed)
    (t : τ) (ht : t ∈ shared.map Prod.fst) :
    ∃ st, alookup ed._adj_by_type t = some st ∧
      buildAdj num_nodes (dfRows (frameOf shared t)) = some st ∧
      (st.in_d.length = num_nodes ∧ st.out_d.length = num_nodes ∧
        st.und.length = num_nodes ∧ st.in_w.length = num_nodes ∧
        st.out_w.length = num_nodes ∧ st.und_w.length = num_nodes) ∧
      (∀ k : Nat, k < num_nodes →
        st.in_d[k]? = some ((inPairs (dfRows (frameOf shared t)) k).map Prod.fst) ∧
        st.in_w[k]? = some ((inPairs (dfRows (frameOf shared t)) k).map Prod.snd) ∧
        st.out_d[k]? = some ((outPairs (dfRows (frameOf shared t)) k).map Prod.fst) ∧
        st.out_w[k]? = some ((outPairs (dfRows (frameOf shared t)) k).map Prod.snd) ∧
        st.und[k]? = some ((undPairs (dfRows (frameOf shared t)) k).map Prod.fst) ∧
        st.und_w[k]? = some ((undPairs (dfRows (frameOf shared t)) k).map Prod.snd)) := by
  obtain ⟨_, _, hmap⟩ := edgeData_construct_ok hc
  have hts : t ∈ sortedKeys shared := ((sortedKeys_perm shared).mem_iff).mpr ht
  obtain ⟨st, hl, hg⟩ := mapM_adj_lookup
    (fun t => buildAdj num_nodes (dfRows (frameOf shared t)))
    (sortedKeys shared) ed._adj_by_type hmap (sortedKeys_nodup shared hkeys) t hts
  obtain ⟨hlen, hks⟩ := buildAdj_spec num_nodes (dfRows (frameOf shared t)) st hg
  exact ⟨st, hl, hg, hlen, hks⟩

/-- C9: `degrees`, `neighbour_ilocs` and `neighbour_weights` each select
exactly one of the three precomputed tables — the undirected-combined table
when both flags are true, the incoming table when only `ins` is true, the
outgoing table when only `outs` is true, never any other combination;
`degrees` defaults absent node keys to count 0; and every one of these
queries fails with the "need at least one of ins/outs" usage error when both
flags are false. -/
theorem C9_flag_dispatch {τ : Type v} {α : Type u} [DecidableEq τ]
    (ed : EdgeData τ α) (t : τ) (node_id : Int) :
    (ed._adj_lookup t true true = keyed (ed._edges_by_type t)) ∧
    (ed._adj_lookup t true false = keyed (ed._edges_in_by_type t)) ∧
    (ed._adj_lookup t false true = keyed (ed._edges_out_by_type t)) ∧
    (ed._adj_lookup t false false = Except.error AdjErr.needInsOrOuts) ∧
    (ed._weight_lookup t true true = keyed (ed._weights_by_type t)) ∧
    (ed._weight_lookup t true false = keyed (ed._weights_in_by_type t)) ∧
    (ed._weight_lookup t false true = keyed (ed._weights_out_by_type t)) ∧
    (ed._weight_lookup t false false = Except.error AdjErr.needInsOrOuts) ∧
    (ed.degrees t false false = Except.error AdjErr.needInsOrOuts) ∧
    (ed.neighbour_ilocs node_id t false false = Except.error AdjErr.needInsOrOuts) ∧
    (ed.neighbour_weights node_id t false false = Except.error AdjErr.needInsOrOuts) ∧
    (∀ ins outs : Bool, ∀ adj, ed._adj_lookup t ins outs = Except.ok adj →
      (ed.degrees t ins outs = Except.ok (fun key =>
        if 0 ≤ key ∧ key < (adj.length : Int)
        then ((adj[key.toNat]?).getD []).length else 0) ∧
      (∀ key : Int, (key < 0 ∨ (adj.length : Int) ≤ key) →
        (if 0 ≤ key ∧ key < (adj.length : Int)
         then ((adj[key.toNat]?).getD []).length else 0) = 0) ∧
      ed.neighbour_ilocs node_id t ins outs =
        (if 0 ≤ node_id ∧ node_id < (adj.length : Int) then
          Except.ok ((adj[node_id.toNat]?).getD [])
        else Except.error AdjErr.keyError))) ∧
    (∀ ins outs : Bool, ∀ wadj, ed._weight_lookup t ins outs = Except.ok wadj →
      ed.neighbour_weights node_id t ins outs =
        (if 0 ≤ node_id ∧ node_id < (wadj.length : Int) then
          Except.ok ((wadj[node_id.toNat]?).getD [])
        else Except.error AdjErr.keyError)) := by
  refine ⟨rfl, rfl, rfl, rfl, rfl, rfl, rfl, rfl, rfl, rfl, rfl, ?_, ?_⟩
  · intro ins outs adj h
    refine ⟨?_, ?_, ?_⟩
    · unfold EdgeData.degrees
      rw [h]
      rfl
    · intro key hkey
      rw [if_neg (by omega)]
    · unfold EdgeData.neighbour_ilocs
      rw [h]
  · intro ins outs wadj h
    unfold EdgeData.neighbour_weights
    rw [h]

/-- C2 witness: on the example edges, node 2's undirected neighbour list is
`[1, 2]` (the self-loop appears once), its in-degree is 2 and its out-degree
is 1, and the general adjacency invariant holds for the type. -/
theorem C2_witness :
    EdgeData.construct sharedEx2 3 = Except.ok edEx2 ∧
    ((sharedEx2.map Prod.fst).Nodup ∧ 0 ∈ sharedEx2.map Prod.fst) ∧
    edEx2.neighbour_ilocs 2 0 true true = Except.ok [1, 2] ∧
    (edEx2.degrees 0 true false).map (fun f => f 2) = Except.ok 2 ∧
    (edEx2.degrees 0 false true).map (fun f => f 2) = Except.ok 1 ∧
    (∃ st, alookup edEx2._adj_by_type 0 = some st ∧
      buildAdj 3 (dfRows (frameOf sharedEx2 0)) = some st ∧
      (st.in_d.length = 3 ∧ st.out_d.length = 3 ∧ st.und.length = 3 ∧
        st.in_w.length = 3 ∧ st.out_w.length = 3 ∧ st.und_w.length = 3) ∧
      (∀ k : Nat, k < 3 →
        st.in_d[k]? = some ((inPairs (dfRows (frameOf sharedEx2 0)) k).map Prod.fst) ∧
        st.in_w[k]? = some ((inPairs (dfRows (frameOf sharedEx2 0)) k).map Prod.snd) ∧
        st.out_d[k]? = some ((outPairs (dfRows (frameOf sharedEx2 0)) k).map Prod.fst) ∧
        st.out_w[k]? = some ((outPairs (dfRows (frameOf sharedEx2 0)) k).map Prod.snd) ∧
        st.und[k]? = some ((undPairs (dfRows (frameOf sharedEx2 0)) k).map Prod.fst) ∧
        st.und_w[k]? = some ((undPairs (dfRows (frameOf sharedEx2 0)) k).map Prod.snd))) :=
  ⟨by decide, ⟨by decide, by decide⟩, by decide, by decide, by decide,
    C2_adjacency_invariant sharedEx2 3 edEx2 (by decide) (by decide) 0 (by decide)⟩

/-- C9 witness: the flag dispatch on the example edge store, type 0, node 5. -/
theorem C9_witness :
    (edEx2._adj_lookup 0 true true = keyed (edEx2._edges_by_type 0)) ∧
    (edEx2._adj_lookup 0 true false = keyed (edEx2._edges_in_by_type 0)) ∧
    (edEx2._adj_lookup 0 false true = keyed (edEx2._edges_out_by_type 0)) ∧
    (edEx2._adj_lookup 0 false false = Except.error AdjErr.needInsOrOuts) ∧
    (edEx2._weight_lookup 0 true true = keyed (edEx2._weights_by_type 0)) ∧
    (edEx2._weight_lookup 0 true false = keyed (edEx2._weights_in_by_type 0)) ∧
    (edEx2._weight_lookup 0 false true = keyed (edEx2._weights_out_by_type 0)) ∧
    (edEx2._weight_lookup 0 false false = Except.error AdjErr.needInsOrOuts) ∧
    (edEx2.degrees 0 false false = Except.error AdjErr.needInsOrOuts) ∧
    (edEx2.neighbour_ilocs 5 0 false false = Except.error AdjErr.needInsOrOuts) ∧
    (edEx2.neighbour_weights 5 0 false false = Except.error AdjErr.needInsOrOuts) ∧
    (∀ ins outs : Bool, ∀ adj, edEx2._adj_lookup 0 ins outs = Except.ok adj →
      (edEx2.degrees 0 ins outs = Except.ok (fun key =>
        if 0 ≤ key ∧ key < (adj.length : Int)
        then ((adj[key.toNat]?).getD []).length else 0) ∧
      (∀ key : Int, (key < 0 ∨ (adj.length : Int) ≤ key) →
        (if 0 ≤ key ∧ key < (adj.length : Int)
         then ((adj[key.toNat]?).getD []).length else 0) = 0) ∧
      edEx2.neighbour_ilocs 5 0 ins outs =
        (if 0 ≤ (5 : Int) ∧ (5 : Int) < (adj.length : Int) then
          Except.ok ((adj[(5 : Int).toNat]?).getD [])
        else Except.error AdjErr.keyError))) ∧
    (∀ ins outs : Bool, ∀ wadj, edEx2._weight_lookup 0 ins outs = Except.ok wadj →
      edEx2.neighbour_weights 5 0 ins outs =
        (if 0 ≤ (5 : Int) ∧ (5 : Int) < (wadj.length : Int) then
          Except.ok ((wadj[(5 : Int).toNat]?).getD [])
        else Except.error AdjErr.keyError)) :=
  C9_flag_dispatch edEx2 0 5

/-- C5 witness: the bounds characterisation on the index over `[5, 7]`. -/
theorem C5_witness :
    ((((ExternalIdIndex.ofList [5, 7]).from_iloc [0, -1, 5]).isSome ↔
      ∀ i ∈ [(0 : Int), -1, 5],
        -((ExternalIdIndex.ofList [5, 7]).length : Int) ≤ i ∧
        i < ((ExternalIdIndex.ofList [5, 7]).length : Int)) ∧
    (∀ i : Int, -((ExternalIdIndex.ofList [5, 7]).length : Int) ≤ i → i < 0 →
      (ExternalIdIndex.ofList [5, 7]).from_iloc [i] =
        ((ExternalIdIndex.ofList [5, 7])._index[
          (((ExternalIdIndex.ofList [5, 7]).length : Int) + i).toNat]?).map
          (fun a => [a]))) :=
  C5_from_iloc_bounds (ExternalIdIndex.ofList [5, 7]) [0, -1, 5]
